import Mathlib

/-!
# Verification of the tween scheduling engine (`src/game/tweening.py`)

This file shallowly embeds the tween engine of the repository: the easing
curve catalog, the leaf tween node (`_Tween`), the serial and parallel
composition groups (`_Serial`, `_Parallel`) and the scheduler (`Tweener`).

Numeric values are modelled as exact rationals (`ℚ`) for the engine
semantics, and as real numbers (`ℝ`) for the easing-curve catalog (which
uses `cos`, `sin`, `sqrt`, `**` and `asin`).  Python object identity is
modelled by indices into per-kind heaps held in an `EngineState`; the
callback re-wiring performed by the groups is modelled by a first-order
`Cb` value stored in each node, interpreted by a fuel-indexed interpreter
`exec` (the mutual recursion between group callbacks and group advancement
is realised as structural recursion on the fuel).
-/

namespace Tweening

/-- Engine values: exact rational time/values (Python floats idealised). -/
abbrev Val := ℚ

/-- The `TweenStates` enumeration of `tweening.py` (`error/created/active/paused/ended`). -/
inductive TweenState where
  | error
  | created
  | active
  | paused
  | ended
deriving DecidableEq, Repr, Inhabited

/-- A callback value: either absent (`None`), an opaque user callback
(identified by a number; invoking it only records an event), or one of the
internal group callbacks (`_Serial.call_back_to_serial`,
`_Parallel.call_back_to_parallel` bound to a given group instance). -/
inductive Cb where
  | none
  | user (k : Nat)
  | serial (g : Nat)
  | parallel (g : Nat)
deriving DecidableEq, Repr, Inhabited

/-- A reference to a node: index into the leaf heap, serial heap or parallel heap. -/
inductive Ref where
  | leaf (i : Nat)
  | serial (g : Nat)
  | parallel (g : Nat)
deriving DecidableEq, Repr, Inhabited

/-- Observable events: invocation of an opaque user callback. -/
inductive Event where
  | userCb (k : Nat)
deriving DecidableEq, Repr, Inhabited

/-- Easing functions used by the engine model (exact-rational curves of the
catalog; `ease_linear` is the default of `create_tween`). -/
inductive EaseId where
  | linear
  | in_quad
  | out_quad
deriving DecidableEq, Repr, Inhabited

/-- `ease_linear`, `ease_in_quad`, `ease_out_quad` from the catalog, over ℚ
(these curves ignore the `p` parameter, cf. `PyUnusedLocal` in the source). -/
def applyEase : EaseId → Val → Val → Val → Val → Val
  | .linear, t, b, c, d => c * t / d + b
  | .in_quad, t, b, c, d => let u := t / d; c * u * u + b
  | .out_quad, t, b, c, d => let u := t / d; -c * u * (u - 2) + b

/-- The `_Tween` leaf node: owner object (`o`), attribute name (`a`),
callback (`cb`), state, delay, clock `t`, ease function `f`, begin `b`,
change `c`, duration `d`, cached value `v` and the delta-update flag. -/
structure Leaf where
  tweener : Nat
  o : Nat
  a : Nat
  cb : Cb
  state : TweenState
  delay : Val
  t : Val
  f : EaseId
  b : Val
  c : Val
  d : Val
  v : Val
  delta_update : Bool
deriving DecidableEq, Repr, Inhabited

/-- The `_Serial` group: children, state, own callback, current child index
(`_current_tween_index`, a Python `int`, starts at `-1`), the saved
`immediate` flag, the saved original callback of the live child
(`_current_tween_cb`), elapsed `t` and the `is_looping` flag. -/
structure SerialG where
  tweener : Nat
  tweens : List Ref
  state : TweenState
  cb : Cb
  current_tween_index : Int
  immediate : Bool
  current_tween_cb : Cb
  t : Val
  is_looping : Bool
deriving DecidableEq, Repr, Inhabited

/-- The `_Parallel` group: children, state, own callback, the
`_tween_callbacks` dictionary (insertion-ordered association list from
child to its saved original callback) and elapsed `t`. -/
structure ParallelG where
  tweener : Nat
  tweens : List Ref
  state : TweenState
  cb : Cb
  tween_callbacks : List (Ref × Cb)
  t : Val
deriving DecidableEq, Repr, Inhabited

/-- Full engine state: the three node heaps, the scheduler's
`_active_tweens` and `_paused_tweens` registries (which only ever hold leaf
tweens, since only `_Tween.start` reaches `Tweener.start_tween`), the
owner-attribute store and the event log of user-callback invocations. -/
structure EngineState where
  leaves : List Leaf
  serials : List SerialG
  parallels : List ParallelG
  active : List Nat
  paused : List Nat
  attrs : Nat → Nat → Val
  events : List Event

def getLeaf (s : EngineState) (i : Nat) : Leaf := s.leaves.getD i default

def setLeaf (i : Nat) (tw : Leaf) (s : EngineState) : EngineState :=
  { s with leaves := s.leaves.set i tw }

def getSerial (s : EngineState) (g : Nat) : SerialG := s.serials.getD g default

def updSerial (g : Nat) (f : SerialG → SerialG) (s : EngineState) : EngineState :=
  { s with serials := s.serials.set g (f (getSerial s g)) }

def getParallel (s : EngineState) (g : Nat) : ParallelG := s.parallels.getD g default

def updParallel (g : Nat) (f : ParallelG → ParallelG) (s : EngineState) : EngineState :=
  { s with parallels := s.parallels.set g (f (getParallel s g)) }

/-- `setattr(obj, attr, value)` on the owner store. -/
def setAttr (o a : Nat) (v : Val) (s : EngineState) : EngineState :=
  { s with attrs := fun o2 a2 => if o2 = o ∧ a2 = a then v else s.attrs o2 a2 }

/-- Record a user-callback invocation. -/
def pushEvent (e : Event) (s : EngineState) : EngineState :=
  { s with events := s.events ++ [e] }

/-- Append a batch of events (the net effect of invoking a plain callback). -/
def pushEvents (es : List Event) (s : EngineState) : EngineState :=
  { s with events := s.events ++ es }

/-- The `cb` field of a node (leaves and groups all carry one). -/
def cbOf (r : Ref) (s : EngineState) : Cb :=
  match r with
  | .leaf i => (getLeaf s i).cb
  | .serial g => (getSerial s g).cb
  | .parallel g => (getParallel s g).cb

/-- Assign the `cb` field of a node (`node.cb = ...` in the source). -/
def setCbRef (r : Ref) (cb : Cb) (s : EngineState) : EngineState :=
  match r with
  | .leaf i => setLeaf i { getLeaf s i with cb := cb } s
  | .serial g => updSerial g (fun ser => { ser with cb := cb }) s
  | .parallel g => updParallel g (fun p => { p with cb := cb }) s

/-- The `t` field of a node. -/
def tOf (r : Ref) (s : EngineState) : Val :=
  match r with
  | .leaf i => (getLeaf s i).t
  | .serial g => (getSerial s g).t
  | .parallel g => (getParallel s g).t

/-- `node.t += x` (used by `_Serial._start_tween` for the overtime carry). -/
def addT (r : Ref) (x : Val) (s : EngineState) : EngineState :=
  match r with
  | .leaf i => setLeaf i { getLeaf s i with t := (getLeaf s i).t + x } s
  | .serial g => updSerial g (fun ser => { ser with t := ser.t + x }) s
  | .parallel g => updParallel g (fun p => { p with t := p.t + x }) s

/-- The `state` field of a node. -/
def stateOfRef (r : Ref) (s : EngineState) : TweenState :=
  match r with
  | .leaf i => (getLeaf s i).state
  | .serial g => (getSerial s g).state
  | .parallel g => (getParallel s g).state

/-- The `tweener` field of a node (object identity of the owning scheduler). -/
def tweenerOf (r : Ref) (s : EngineState) : Nat :=
  match r with
  | .leaf i => (getLeaf s i).tweener
  | .serial g => (getSerial s g).tweener
  | .parallel g => (getParallel s g).tweener

/-- Python list indexing `xs[i]` with negative-index semantics
(`xs[-1]` is the last element; out of range yields `none`, where the
source would raise `IndexError`). -/
def pyIndex (l : List Ref) (i : Int) : Option Ref :=
  if 0 ≤ i then l.get? i.toNat
  else if (-i).toNat ≤ l.length then l.get? (l.length - (-i).toNat)
  else none

/-- Maximum of a duration list, 0 on the empty list (the source's
`list(sorted(tweens, key=d))[-1]` would raise `IndexError` there). -/
def listMax (l : List Val) : Val := l.foldl (fun acc x => max acc x) 0

/-- The duration of a node: explicit `d` for a leaf, `sum` of children for
`_Serial.d`, max of children for `_Parallel.d`.  Fuel bounds the recursion
through the (acyclic in practice) child graph. -/
def dOf : Nat → Ref → EngineState → Val
  | _, .leaf i, s => (getLeaf s i).d
  | 0, _, _ => 0
  | fuel + 1, .serial g, s => ((getSerial s g).tweens.map (fun r => dOf fuel r s)).sum
  | fuel + 1, .parallel g, s => listMax ((getParallel s g).tweens.map (fun r => dOf fuel r s))
termination_by structural fuel _ _ => fuel

/-- `_Serial._get_next_tween`. -/
def get_next_tween (g : Nat) (s : EngineState) : Option Ref :=
  let ser := getSerial s g
  let idx := ser.current_tween_index + 1
  if (ser.tweens.length : Int) ≤ idx then none else pyIndex ser.tweens idx

/-- `self._current_tween_index += 1`. -/
def incIdx (g : Nat) (s : EngineState) : EngineState :=
  updSerial g (fun ser => { ser with current_tween_index := ser.current_tween_index + 1 }) s

/-- `Tweener.remove_tween`: unconditional removal from both registries
(first occurrence, as Python `list.remove`) and transition to `ended`,
without invoking any callback. -/
def remove_tween (i : Nat) (s : EngineState) : EngineState :=
  let s := { s with active := s.active.erase i, paused := s.paused.erase i }
  setLeaf i { getLeaf s i with state := .ended } s

/-- `Tweener.start_tween` on a leaf: implicit `stop()`, reset of `t` to
`-delay` and of `v` to `b`, registration in the active list, transition to
`active`, and — when `immediate` — an absolute write of `f(0, b, c, d, p)`
to the owner attribute.  (The cross-tweener check raises in the source; the
run model has a single scheduler, the check is modelled by
`validate_tweens_state_and_same_tweener` for construction.) -/
def start_tween (i : Nat) (immediate : Bool) (s : EngineState) : EngineState :=
  let s := remove_tween i s
  let tw := getLeaf s i
  let s := setLeaf i { tw with t := -tw.delay, v := tw.b, state := .active } s
  let s := { s with active := s.active ++ [i] }
  if immediate then setAttr tw.o tw.a (applyEase tw.f 0 tw.b tw.c tw.d) s else s

/-- The skip step of `_Serial._start_tween`'s `while` loop writes the
skipped child's terminal value `f(d, b, c, d, p)` to its owner attribute.
(For a group child the source would raise `AttributeError` reading
`_tween.o`; that path is unreachable in the verified flows.) -/
def applyTerminal (tw : Ref) (s : EngineState) : EngineState :=
  match tw with
  | .leaf i =>
    let l := getLeaf s i
    setAttr l.o l.a (applyEase l.f l.d l.b l.c l.d) s
  | _ => s

/-- Insertion-ordered dictionary insert (`self._tween_callbacks[k] = v`). -/
def dictInsert (d : List (Ref × Cb)) (k : Ref) (v : Cb) : List (Ref × Cb) :=
  if d.any (fun kv => kv.1 == k) then d.map (fun kv => if kv.1 == k then (k, v) else kv)
  else d ++ [(k, v)]

/-- Dictionary lookup. -/
def dictLookup (d : List (Ref × Cb)) (k : Ref) : Option Cb :=
  (d.find? (fun kv => kv.1 == k)).map Prod.snd

/-- Dictionary key removal (`dict.pop(k, None)` side effect). -/
def dictRemove (d : List (Ref × Cb)) (k : Ref) : List (Ref × Cb) :=
  d.filter (fun kv => kv.1 != k)

/-- The operations whose Python originals are mutually recursive through
callback invocation: callback dispatch, `start`/`stop` on any node,
`_Serial._start_tween` (entry and `while` loop), `_Serial`'s own-callback
helper, `_Serial.call_back_to_serial` and `_Parallel.call_back_to_parallel`. -/
inductive Op where
  | invoke (cb : Cb) (ended : Ref)
  | start (r : Ref) (immediate : Bool)
  | stop (r : Ref)
  | serialStartTween (g : Nat) (over_time : Val)
  | serialLoop (g : Nat) (over_time : Val) (tw : Ref)
  | callOwnCb (g : Nat)
  | cbToSerial (g : Nat) (ended : Ref)
  | cbToParallel (g : Nat) (ended : Ref)

/-- The interpreter for the mutually recursive part of the engine, by
structural recursion on fuel.  Each equation is a direct translation of the
corresponding method of `tweening.py`. -/
def exec : Nat → Op → EngineState → EngineState
  | 0, _, s => s
  | fuel + 1, op, s =>
    match op with
    | .invoke cb ended =>
      match cb with
      | .none => s
      | .user k => pushEvent (.userCb k) s
      | .serial g => exec fuel (.cbToSerial g ended) s
      | .parallel g => exec fuel (.cbToParallel g ended) s
    | .start r immediate =>
      match r with
      | .leaf i => start_tween i immediate s
      | .serial g =>
          -- _Serial.start: self.stop(); index := -1; record immediate; t := 0;
          -- self._start_tween(); state := active
          let s := exec fuel (.stop (.serial g)) s
          let s := updSerial g (fun ser =>
            { ser with current_tween_index := -1, immediate := immediate, t := 0 }) s
          let s := exec fuel (.serialStartTween g 0) s
          updSerial g (fun ser => { ser with state := .active }) s
      | .parallel g =>
          -- _Parallel.start: t := 0; saved-callback dict cleared; every child
          -- is started, its callback saved and re-wired to the group handler;
          -- state := active
          let s := updParallel g (fun p => { p with t := 0, tween_callbacks := [] }) s
          let s := (getParallel s g).tweens.foldl (fun s r =>
            let s := exec fuel (.start r immediate) s
            let saved := cbOf r s
            let s := updParallel g (fun p =>
              { p with tween_callbacks := dictInsert p.tween_callbacks r saved }) s
            setCbRef r (.parallel g) s) s
          updParallel g (fun p => { p with state := .active }) s
    | .stop r =>
      match r with
      | .leaf i => remove_tween i s
      | .serial g =>
          -- _Serial.stop: stop every child; if active, restore the live
          -- child's callback (Python negative indexing); state := ended
          let s := (getSerial s g).tweens.foldl (fun s r => exec fuel (.stop r) s) s
          let ser := getSerial s g
          let s :=
            if ser.state = .active then
              match pyIndex ser.tweens ser.current_tween_index with
              | some r2 => setCbRef r2 ser.current_tween_cb s
              | Option.none => s
            else s
          updSerial g (fun ser => { ser with state := .ended }) s
      | .parallel g =>
          -- _Parallel.stop: state := ended; stop each child and restore its
          -- saved callback; clear the dict
          let s := updParallel g (fun p => { p with state := .ended }) s
          let s := (getParallel s g).tweens.foldl (fun s r =>
            let s := exec fuel (.stop r) s
            match dictLookup (getParallel s g).tween_callbacks r with
            | some cb0 => setCbRef r cb0 s
            | Option.none => s) s
          updParallel g (fun p => { p with tween_callbacks := [] }) s
    | .serialStartTween g ot =>
      -- _Serial._start_tween(over_time)
      match get_next_tween g s with
      | some tw =>
          let s := incIdx g s
          exec fuel (.serialLoop g ot tw) s
      | Option.none =>
          if (getSerial s g).is_looping then
            let s := updSerial g (fun ser => { ser with current_tween_index := -1 }) s
            let s := exec fuel (.serialStartTween g ot) s
            exec fuel (.callOwnCb g) s
          else exec fuel (.callOwnCb g) s
    | .serialLoop g ot tw =>
      -- the `while _tween.d <= over_time` loop of _Serial._start_tween
      if dOf fuel tw s ≤ ot then
        let cb := cbOf tw s
        let s := if cb ≠ .none then exec fuel (.invoke cb tw) s else s
        let s := applyTerminal tw s
        match get_next_tween g s with
        | Option.none => exec fuel (.callOwnCb g) s
        | some tw2 =>
            let s := incIdx g s
            exec fuel (.serialLoop g ot tw2) s
      else
        -- live child: save its callback, wire the serial handler, start it
        -- and advance its clock by the carried overtime
        let s := updSerial g (fun ser => { ser with current_tween_cb := cbOf tw s }) s
        let s := setCbRef tw (.serial g) s
        let s := exec fuel (.start tw (getSerial s g).immediate) s
        addT tw ot s
    | .callOwnCb g =>
      -- _Serial._call_own_callback
      let ser := getSerial s g
      if ser.cb ≠ .none then exec fuel (.invoke ser.cb (.serial g)) s else s
    | .cbToSerial g ended =>
      -- _Serial.call_back_to_serial: over_time := ended.t - ended.d;
      -- self.t += ended.t; restore and invoke the child's original callback;
      -- recurse into _start_tween with the carried overtime
      let ot := tOf ended s - dOf fuel ended s
      let s := updSerial g (fun ser => { ser with t := ser.t + tOf ended s }) s
      let saved := (getSerial s g).current_tween_cb
      let s := setCbRef ended saved s
      let s := if saved ≠ .none then exec fuel (.invoke saved ended) s else s
      exec fuel (.serialStartTween g ot) s
    | .cbToParallel g ended =>
      -- _Parallel.call_back_to_parallel: self.t := ended.t; pop and invoke
      -- the child's saved callback; when the dict empties, invoke the
      -- group's own callback
      let s := updParallel g (fun p => { p with t := tOf ended s }) s
      let saved := dictLookup (getParallel s g).tween_callbacks ended
      let s := updParallel g (fun p =>
        { p with tween_callbacks := dictRemove p.tween_callbacks ended }) s
      let newCb := saved.getD .none
      let s := setCbRef ended newCb s
      let s := if newCb ≠ .none then exec fuel (.invoke newCb ended) s else s
      let p2 := getParallel s g
      if p2.cb ≠ .none ∧ p2.tween_callbacks = [] then
        exec fuel (.invoke p2.cb (.parallel g)) s
      else s
termination_by structural fuel _ _ => fuel

/-- One iteration of the advance loop of `Tweener.update`: add `dt` to the
leaf's clock; when the clock is non-negative, evaluate the curve at
`min(t, d)`, mark the leaf ended when `t >= d`, and write the value to the
owner attribute (absolutely, or as an increment of the current attribute
value in delta mode). -/
def advance (dt : Val) (acc : EngineState × List Nat) (i : Nat) : EngineState × List Nat :=
  let s := acc.1
  let tw := getLeaf s i
  let tnew := tw.t + dt
  if 0 ≤ tnew then
    let cur := if tw.d ≤ tnew then tw.d else tnew
    let value := applyEase tw.f cur tw.b tw.c tw.d
    let s2 :=
      if tw.delta_update then
        let s3 := setLeaf i { tw with t := tnew, v := value } s
        setAttr tw.o tw.a (s3.attrs tw.o tw.a + (value - tw.v)) s3
      else
        let s3 := setLeaf i { tw with t := tnew } s
        setAttr tw.o tw.a value s3
    (s2, if tw.d ≤ tnew then acc.2 ++ [i] else acc.2)
  else (setLeaf i { tw with t := tnew } s, acc.2)

/-- `Tweener.update(delta_time)`: advance every active leaf, then, in the
order they ended, remove each ended leaf from the active registry, mark it
`ended` and synchronously invoke its (current) callback. -/
def update (fuel : Nat) (dt : Val) (s : EngineState) : EngineState :=
  let res := s.active.foldl (advance dt) (s, [])
  res.2.foldl (fun s i =>
    let s := { s with active := s.active.erase i }
    let s := setLeaf i { getLeaf s i with state := .ended } s
    let cb := (getLeaf s i).cb
    if cb ≠ .none then exec fuel (.invoke cb (.leaf i)) s else s) res.1

/-- `Tweener.pause_tweens`: bulk move of the whole active registry onto the
paused registry; no per-tween field is touched. -/
def pause_tweens (s : EngineState) : EngineState :=
  { s with paused := s.paused ++ s.active, active := [] }

/-- `Tweener.resume_tweens`: bulk move back; no per-tween field is touched. -/
def resume_tweens (s : EngineState) : EngineState :=
  { s with active := s.active ++ s.paused, paused := [] }

/-- `Tweener.pause_tween`: move the first matching registered tween from
active to paused and set its state to `paused`; not found is a logged no-op. -/
def pause_tween (i : Nat) (s : EngineState) : EngineState :=
  if i ∈ s.active then
    let s := { s with active := s.active.erase i, paused := s.paused ++ [i] }
    setLeaf i { getLeaf s i with state := .paused } s
  else s

/-- `Tweener.resume_tween`: the converse move, setting state to `active`. -/
def resume_tween (i : Nat) (s : EngineState) : EngineState :=
  if i ∈ s.paused then
    let s := { s with paused := s.paused.erase i, active := s.active ++ [i] }
    setLeaf i { getLeaf s i with state := .active } s
  else s

/-- `Tweener.get_all_tweens_for(obj, state)`: registry-based query, scanning
the active registry for the `active` filter (or no filter) and the paused
registry for the `paused` filter (or no filter).  With a typed filter the
`UnknownTweenStateException` branch is unreachable. -/
def get_all_tweens_for (obj : Nat) (stateFilter : Option TweenState) (s : EngineState) :
    List Nat :=
  (if stateFilter = Option.none ∨ stateFilter = some .active then
    s.active.filter (fun i => (getLeaf s i).o == obj) else [])
  ++ (if stateFilter = Option.none ∨ stateFilter = some .paused then
    s.paused.filter (fun i => (getLeaf s i).o == obj) else [])

/-- Construction-time failures of the engine. -/
inductive TweenError where
  | assertionError
  | belongsToOtherTweener
  | notInAppropriateState
deriving DecidableEq, Repr

instance {ε α : Type} [DecidableEq ε] [DecidableEq α] : DecidableEq (Except ε α) := fun x y =>
  match x, y with
  | .ok a, .ok b => decidable_of_iff (a = b) (by simp)
  | .error e1, .error e2 => decidable_of_iff (e1 = e2) (by simp)
  | .ok _, .error _ => isFalse (by simp)
  | .error _, .ok _ => isFalse (by simp)

/-- `_Tween.__init__`: `assert duration > 0.0`; fields as in the source
(`t` starts at `-delay`, `v` at `b`, state `created`). -/
def Tween_init (tweenerId o a : Nat) (b c d : Val) (f : EaseId) (delay : Val)
    (delta_update : Bool) (cb : Cb) : Except TweenError Leaf :=
  if 0 < d then
    .ok { tweener := tweenerId, o := o, a := a, cb := cb, state := .created,
          delay := delay, t := -delay, f := f, b := b, c := c, d := d, v := b,
          delta_update := delta_update }
  else .error .assertionError

/-- `_validate_tweens_state_and_same_tweener` (identical in `_Serial` and
`_Parallel`): for each child in order, a foreign owner raises
`TweenBelongsToOtherTweenerException`, then a non-`created` state raises
`TweenNotInAppropriateStateException`. -/
def validate_tweens_state_and_same_tweener (tweenerId : Nat) (children : List Ref)
    (s : EngineState) : Except TweenError Unit :=
  match children with
  | [] => .ok ()
  | r :: rest =>
    if tweenerOf r s ≠ tweenerId then .error .belongsToOtherTweener
    else if stateOfRef r s ≠ .created then .error .notInAppropriateState
    else validate_tweens_state_and_same_tweener tweenerId rest s

/-- `_Serial.__init__`: validation plus the initial field values. -/
def Serial_init (tweenerId : Nat) (children : List Ref) (s : EngineState) :
    Except TweenError SerialG :=
  (validate_tweens_state_and_same_tweener tweenerId children s).map (fun _ =>
    { tweener := tweenerId, tweens := children, state := .created, cb := .none,
      current_tween_index := -1, immediate := false, current_tween_cb := .none,
      t := 0, is_looping := false })

/-- `_Parallel.__init__`: validation plus the initial field values. -/
def Parallel_init (tweenerId : Nat) (children : List Ref) (s : EngineState) :
    Except TweenError ParallelG :=
  (validate_tweens_state_and_same_tweener tweenerId children s).map (fun _ =>
    { tweener := tweenerId, tweens := children, state := .created, cb := .none,
      tween_callbacks := [], t := 0 })

/-- `_Tween.repeat(count)` (same code in the groups): `count < 1` yields a
looping serial wrapping the node once; otherwise a serial containing
`count` aliased references to the node. -/
def tween_repeat (tweenerId : Nat) (r : Ref) (count : Int) (s : EngineState) :
    Except TweenError SerialG :=
  if count < 1 then (Serial_init tweenerId [r] s).map (fun g => { g with is_looping := true })
  else Serial_init tweenerId (List.replicate count.toNat r) s

/-! ## Concrete scenario states for the testable properties -/

/-- A leaf as produced by `create_tween(..., do_start=False)` under tweener
`0` with zero delay, the default linear curve and absolute update mode. -/
def mkLeaf (o a : Nat) (b c d : Val) (cb : Cb) : Leaf :=
  { tweener := 0, o := o, a := a, cb := cb, state := .created, delay := 0,
    t := 0, f := .linear, b := b, c := c, d := d, v := b, delta_update := false }

/-- A freshly constructed serial group (fields as `_Serial.__init__`),
with its own end callback assigned afterwards. -/
def mkSerial (children : List Ref) (cb : Cb) : SerialG :=
  { tweener := 0, tweens := children, state := .created, cb := cb,
    current_tween_index := -1, immediate := false, current_tween_cb := .none,
    t := 0, is_looping := false }

/-- A freshly constructed parallel group (fields as `_Parallel.__init__`),
with its own end callback assigned afterwards. -/
def mkParallel (children : List Ref) (cb : Cb) : ParallelG :=
  { tweener := 0, tweens := children, state := .created, cb := cb,
    tween_callbacks := [], t := 0 }

/-- An engine state holding the given nodes, empty registries, an all-zero
attribute store and an empty event log. -/
def mkState (leaves : List Leaf) (serials : List SerialG) (parallels : List ParallelG) :
    EngineState :=
  { leaves := leaves, serials := serials, parallels := parallels,
    active := [], paused := [], attrs := fun _ _ => 0, events := [] }

/-- C1 scenario: a Serial of two linear leaves, each `duration 1, change 10`
(distinct attributes `0` and `1` of owner `0`), with user callbacks `1`
resp. `2`. -/
def C1_s0 : EngineState :=
  mkState [mkLeaf 0 0 0 10 1 (.user 1), mkLeaf 0 1 0 10 1 (.user 2)]
    [mkSerial [.leaf 0, .leaf 1] .none] []

/-- C1 run: start the serial, then a single `update(dt = 1.5)`. -/
def C1_run : EngineState := update 99 (3 / 2) (exec 99 (.start (.serial 0) true) C1_s0)

/-- C4 scenario: a Parallel of three linear leaves with durations 1, 2, 3,
child callbacks `1`, `2`, `3` and group callback `4`. -/
def C4_s0 : EngineState :=
  mkState [mkLeaf 0 0 0 10 1 (.user 1), mkLeaf 0 1 0 10 2 (.user 2),
           mkLeaf 0 2 0 10 3 (.user 3)]
    [] [mkParallel [.leaf 0, .leaf 1, .leaf 2] (.user 4)]

/-- C4 runs: start, then three `update(dt = 1)` calls. -/
def C4_run1 : EngineState := update 99 1 (exec 99 (.start (.parallel 0) true) C4_s0)

def C4_run2 : EngineState := update 99 1 C4_run1

def C4_run3 : EngineState := update 99 1 C4_run2

/-- C5 parallel scenario: a Parallel of one duration-1 leaf (callback `1`),
group callback `2`, run to natural completion by one `update(dt = 1)`. -/
def C5p_run : EngineState :=
  update 99 1 (exec 99 (.start (.parallel 0) true)
    (mkState [mkLeaf 0 0 0 10 1 (.user 1)] [] [mkParallel [.leaf 0] (.user 2)]))

/-- C5 serial scenario: a non-looping Serial of two duration-1 leaves,
group callback `3`, run to natural completion by two `update(dt = 1)` calls. -/
def C5s_run : EngineState :=
  update 99 1 (update 99 1 (exec 99 (.start (.serial 0) true)
    (mkState [mkLeaf 0 0 0 10 1 .none, mkLeaf 0 1 0 10 1 .none]
      [mkSerial [.leaf 0, .leaf 1] (.user 3)] [])))

/-- C5 looping scenario: a Serial with `is_looping` set over one duration-1
leaf, advanced across one exhaustion of the child list. -/
def C5l_run : EngineState :=
  update 99 1 (exec 99 (.start (.serial 0) true)
    (mkState [mkLeaf 0 0 0 10 1 .none]
      [{ mkSerial [.leaf 0] .none with is_looping := true }] []))

/-- C6 base state: one duration-1 linear leaf with user callback `1`. -/
def C6_base : EngineState := mkState [mkLeaf 0 0 0 10 1 (.user 1)] [] []

/-- C6 group: `repeat(3)` of the leaf, own callback `9` assigned afterwards. -/
def C6_group : SerialG :=
  match tween_repeat 0 (.leaf 0) 3 C6_base with
  | .ok g => { g with cb := .user 9 }
  | .error _ => default

def C6_s0 : EngineState := { C6_base with serials := [C6_group] }

/-- C6 runs: start the repeat group, then three `update(dt = 1)` calls. -/
def C6_run1 : EngineState := update 99 1 (exec 99 (.start (.serial 0) true) C6_s0)

def C6_run2 : EngineState := update 99 1 C6_run1

def C6_run3 : EngineState := update 99 1 C6_run2

/-- C7 scenario: a delta-mode linear leaf on attribute `(0,0)`, started
non-immediately over an arbitrary initial attribute store. -/
def C7_s0 (A : Nat → Nat → Val) (b c d : Val) : EngineState :=
  start_tween 0 false
    { leaves := [{ mkLeaf 0 0 b c d .none with delta_update := true }],
      serials := [], parallels := [], active := [], paused := [],
      attrs := A, events := [] }

/-- The external writer: some other code incrementing attribute `(0,0)`. -/
def extInc (x : Val) (s : EngineState) : EngineState :=
  { s with attrs := fun o a => if o = 0 ∧ a = 0 then s.attrs o a + x else s.attrs o a }

/-- A run of frames: each frame first applies the external increment, then
calls `update(dt)`. -/
def C7_run (frames : List (Val × Val)) (s : EngineState) : EngineState :=
  frames.foldl (fun s pr => update 9 pr.2 (extInc pr.1 s)) s

/-- Sum of the time steps of a frame list. -/
def sumdts (frames : List (Val × Val)) : Val := (frames.map Prod.snd).sum

/-- Sum of the external increments of a frame list. -/
def sumexts (frames : List (Val × Val)) : Val := (frames.map Prod.fst).sum

/-- Pointwise overwrite of attribute `(0,0)`: the normal form that both
`setAttr 0 0` and `extInc` produce on the C7 scenario. -/
def setAt (A : Nat → Nat → Val) (w : Val) : Nat → Nat → Val :=
  fun o a => if o = 0 ∧ a = 0 then w else A o a

/-- The mid-flight shape of the C7 delta-mode leaf: clock `T`, cached
value `v`, still registered active. -/
def C7_mid (A : Nat → Nat → Val) (b c d T v : Val) : EngineState :=
  { leaves := [{ tweener := 0, o := 0, a := 0, cb := .none, state := .active,
                 delay := 0, t := T, f := .linear, b := b, c := c, d := d, v := v,
                 delta_update := true }],
    serials := [], parallels := [], active := [0], paused := [],
    attrs := A, events := [] }

/-- The completed shape of the C7 scenario: the leaf has been removed from
the active registry, so updates no longer touch the state. -/
def C7_done (A : Nat → Nat → Val) (l : Leaf) : EngineState :=
  { leaves := [l], serials := [], parallels := [], active := [], paused := [],
    attrs := A, events := [] }

/-- C8 scenario: a single active leaf mid-flight (clock `T`) with a user
callback, over an arbitrary attribute store. -/
def C8_s0 (b c d T : Val) (k : Nat) (A : Nat → Nat → Val) : EngineState :=
  { leaves := [{ mkLeaf 0 0 b c d (.user k) with state := .active, t := T }],
    serials := [], parallels := [], active := [0], paused := [],
    attrs := A, events := [] }

/-- C10 witness scenario: two active leaves on owners 0 and 7. -/
def C10_s0 : EngineState :=
  { leaves := [{ mkLeaf 0 0 0 10 1 .none with state := .active },
               { mkLeaf 7 0 0 10 1 .none with state := .active, o := 7 }],
    serials := [], parallels := [], active := [0, 1], paused := [],
    attrs := fun _ _ => 0, events := [] }

/-- The user-callback events produced by invoking, in order, the callbacks
of the given leaves (used to state the serial skip-loop property). -/
def cbEvents (s : EngineState) (ids : List Nat) : List Event :=
  ids.filterMap (fun i =>
    match (getLeaf s i).cb with
    | .user k => some (.userCb k)
    | _ => Option.none)

/-- A callback that is an original user callback or absent (the only forms a
`created` child can carry). -/
def plainCb (cb : Cb) : Prop := cb = .none ∨ ∃ k, cb = .user k

/-- The events produced by invoking one callback value, when it is a plain
user callback or absent. -/
def cbEvent : Cb → List Event
  | .user k => [.userCb k]
  | _ => []


/-- C3 witness scenario: a serial of two leaves with durations 1/2 and 1
(user callbacks 1 and 2, group callback 7), to be advanced with an
overtime of 3/4: the first child is skipped, the second becomes live. -/
def C3_s0 : EngineState :=
  mkState [mkLeaf 0 0 0 10 (1 / 2) (.user 1), mkLeaf 0 1 0 10 1 (.user 2)]
    [mkSerial [.leaf 0, .leaf 1] (.user 7)] []

/-! ## The easing-function catalog over ℝ

Direct translations of the `ease_*` functions of `tweening.py`, with Python
floats idealised as real numbers.  The NaN-sentinel fields of the Python
`Parameters` record (`period`, `amplitude`, `overshoot`, each defaulting to
`nan` and tested with `isnan`) are modelled as `Option ℝ` fields, and the
`params is None or isnan(...)` guard as `Option.getD` through both layers. -/

noncomputable section

/-- `TWO_PI = PI * 2`. -/
def TWO_PI : ℝ := Real.pi * 2

/-- `HALF_PI = PI / 2.0`. -/
def HALF_PI : ℝ := Real.pi / 2

/-- The `Parameters` record, NaN sentinels as `Option`. -/
structure Parameters where
  period : Option ℝ
  amplitude : Option ℝ
  overshoot : Option ℝ

/-- `params is None or isnan(params.period)` defaulting. -/
def periodD (p : Option Parameters) (dflt : ℝ) : ℝ :=
  match p with
  | Option.none => dflt
  | some q => q.period.getD dflt

/-- amplitude defaulting. -/
def amplitudeD (p : Option Parameters) (dflt : ℝ) : ℝ :=
  match p with
  | Option.none => dflt
  | some q => q.amplitude.getD dflt

/-- overshoot defaulting (`1.70158 if p is None or isnan(p.overshoot) else p.overshoot`). -/
def overshootD (p : Option Parameters) : ℝ :=
  match p with
  | Option.none => 1.70158
  | some q => q.overshoot.getD 1.70158

def ease_linear (t b c d : ℝ) (_p : Option Parameters) : ℝ := c * t / d + b

def ease_in_quad (t b c d : ℝ) (_p : Option Parameters) : ℝ :=
  let u := t / d;
  c * u * u + b

def ease_out_quad (t b c d : ℝ) (_p : Option Parameters) : ℝ :=
  let u := t / d;
  -c * u * (u - 2) + b

def ease_in_out_quad (t b c d : ℝ) (_p : Option Parameters) : ℝ :=
  let u := t / (d / 2);
  if u < 1 then c / 2 * u * u + b
  else
    let u := u - 1;
    -c / 2 * (u * (u - 2) - 1) + b

def ease_out_in_quad (t b c d : ℝ) (p : Option Parameters) : ℝ :=
  if t < d / 2 then ease_out_quad (t * 2) b (c / 2) d p
  else ease_in_quad (t * 2 - d) (b + c / 2) (c / 2) d p

def ease_in_cubic (t b c d : ℝ) (_p : Option Parameters) : ℝ :=
  let u := t / d;
  c * u * u * u + b

def ease_out_cubic (t b c d : ℝ) (_p : Option Parameters) : ℝ :=
  let u := t / d - 1;
  c * (u * u * u + 1) + b

def ease_in_out_cubic (t b c d : ℝ) (_p : Option Parameters) : ℝ :=
  let u := t / (d / 2);
  if u < 1 then c / 2 * u * u * u + b
  else
    let u := u - 2;
    c / 2 * (u * u * u + 2) + b

def ease_out_in_cubic (t b c d : ℝ) (p : Option Parameters) : ℝ :=
  if t < d / 2 then ease_out_cubic (t * 2) b (c / 2) d p
  else ease_in_cubic (t * 2 - d) (b + c / 2) (c / 2) d p

def ease_in_quart (t b c d : ℝ) (_p : Option Parameters) : ℝ :=
  let u := t / d;
  c * u * u * u * u + b

def ease_out_quart (t b c d : ℝ) (_p : Option Parameters) : ℝ :=
  let u := t / d - 1;
  -c * (u * u * u * u - 1) + b

def ease_in_out_quart (t b c d : ℝ) (_p : Option Parameters) : ℝ :=
  let u := t / (d / 2);
  if u < 1 then c / 2 * u * u * u * u + b
  else
    let u := u - 2;
    -c / 2 * (u * u * u * u - 2) + b

def ease_out_in_quart (t b c d : ℝ) (p : Option Parameters) : ℝ :=
  if t < d / 2 then ease_out_quart (t * 2) b (c / 2) d p
  else ease_in_quart (t * 2 - d) (b + c / 2) (c / 2) d p

def ease_in_quint (t b c d : ℝ) (_p : Option Parameters) : ℝ :=
  let u := t / d;
  c * u * u * u * u * u + b

def ease_out_quint (t b c d : ℝ) (_p : Option Parameters) : ℝ :=
  let u := t / d - 1;
  c * (u * u * u * u * u + 1) + b

def ease_in_out_quint (t b c d : ℝ) (_p : Option Parameters) : ℝ :=
  let u := t / (d / 2);
  if u < 1 then c / 2 * u * u * u * u * u + b
  else
    let u := u - 2;
    c / 2 * (u * u * u * u * u + 2) + b

def ease_out_in_quint (t b c d : ℝ) (p : Option Parameters) : ℝ :=
  let c := c / 2;
  if t < d / 2 then ease_out_quint (t * 2) b c d p
  else ease_in_quint (t * 2 - d) (b + c) c d p

def ease_in_sine (t b c d : ℝ) (_p : Option Parameters) : ℝ :=
  -c * Real.cos (t / d * HALF_PI) + c + b

def ease_in_sine2 (t b c d : ℝ) (_p : Option Parameters) : ℝ :=
  c * Real.cos (t / d * TWO_PI) + b

def ease_in_sine3 (t b c d : ℝ) (_p : Option Parameters) : ℝ :=
  c * Real.sin (t / d * TWO_PI) + b

def ease_out_sine (t b c d : ℝ) (_p : Option Parameters) : ℝ :=
  c * Real.sin (t / d * HALF_PI) + b

def ease_in_out_sine (t b c d : ℝ) (_p : Option Parameters) : ℝ :=
  -c / 2 * (Real.cos (Real.pi * t / d) - 1) + b

def ease_out_in_sine (t b c d : ℝ) (p : Option Parameters) : ℝ :=
  if t < d / 2 then ease_out_sine (t * 2) b (c / 2) d p
  else ease_in_sine (t * 2 - d) (b + c / 2) (c / 2) d p

def ease_in_circ (t b c d : ℝ) (_p : Option Parameters) : ℝ :=
  let u := t / (d + 0.0005);
  -c * (Real.sqrt (1 - u * u) - 1) + b

def ease_out_circ (t b c d : ℝ) (_p : Option Parameters) : ℝ :=
  let u := t / d - 1;
  c * Real.sqrt (1 - u * u) + b

def ease_in_out_circ (t b c d : ℝ) (_p : Option Parameters) : ℝ :=
  let u := t / (d / 2);
  if u < 1 then -c / 2 * (Real.sqrt (1 - u * u) - 1) + b
  else
    let u := u - 2;
    c / 2 * (Real.sqrt (1 - u * u) + 1) + b

def ease_out_in_circ (t b c d : ℝ) (p : Option Parameters) : ℝ :=
  if t < d / 2 then ease_out_circ (t * 2) b (c / 2) d p
  else ease_in_circ (t * 2 - d) (b + c / 2) (c / 2) d p

def ease_in_expo (t b c d : ℝ) (_p : Option Parameters) : ℝ :=
  if t = 0 then b else c * (2 : ℝ) ^ (10 * (t / d - 1)) + b - c * 0.001

def ease_out_expo (t b c d : ℝ) (_p : Option Parameters) : ℝ :=
  if t = d then b + c else c * (-(2 : ℝ) ^ (-10 * t / d) + 1) + b

def ease_in_out_expo (t b c d : ℝ) (_p : Option Parameters) : ℝ :=
  if t = 0 then b
  else if t = d then b + c
  else
    let u := t / (d / 2);
    if u < 1 then c / 2 * (2 : ℝ) ^ (10 * (u - 1)) + b - c * 0.0005
    else c / 2 * 1.0005 * (-(2 : ℝ) ^ (-10 * (u - 1)) + 2) + b

def ease_out_in_expo (t b c d : ℝ) (p : Option Parameters) : ℝ :=
  if t < d / 2 then ease_out_expo (t * 2) b (c / 2) d p
  else ease_in_expo (t * 2 - d) (b + c / 2) (c / 2) d p

def ease_in_elastic (t b c d : ℝ) (params : Option Parameters) : ℝ :=
  if t = 0 then b
  else
    let u := t / d;
    if u = 1 then b + c
    else
      let p := periodD params (d * 0.3);
      let a := amplitudeD params 0;
      let aS : ℝ × ℝ :=
        if a = 0 ∨ a < |c| then (c, p / 4)
        else (a, p / TWO_PI * Real.arcsin (c / a))
      let u := u - 1;
      -(aS.1 * (2 : ℝ) ^ (10 * u) * Real.sin ((u * d - aS.2) * TWO_PI / p)) + b

def ease_out_elastic (t b c d : ℝ) (params : Option Parameters) : ℝ :=
  if t = 0 then b
  else
    let u := t / d;
    if u = 1 then b + c
    else
      let p := periodD params (d * 0.3);
      let a := amplitudeD params 1;
      let aS : ℝ × ℝ :=
        if a = 0 ∨ a < |c| then (c, p / 4)
        else (a, p / TWO_PI * Real.arcsin (c / a))
      aS.1 * (2 : ℝ) ^ (-10 * u) * Real.sin ((u * d - aS.2) * TWO_PI / p) + c + b

def ease_in_out_elastic (t b c d : ℝ) (params : Option Parameters) : ℝ :=
  if t = 0 then b
  else
    let u := t / (d / 2);
    if u = 2 then b + c
    else
      let p := periodD params (d * 0.3 * 1.5);
      let a := amplitudeD params 0;
      let aS : ℝ × ℝ :=
        if a = 0 ∨ a < |c| then (c, p / 4)
        else (a, p / TWO_PI * Real.arcsin (c / a))
      if u < 1 then
        let u := u - 1;
        -0.5 * (aS.1 * (2 : ℝ) ^ (10 * u) * Real.sin ((u * d - aS.2) * TWO_PI / p)) + b
      else
        let u := u - 1;
        aS.1 * (2 : ℝ) ^ (-10 * u) * Real.sin ((u * d - aS.2) * TWO_PI / p) * 0.5 + c + b

def ease_out_in_elastic (t b c d : ℝ) (p : Option Parameters) : ℝ :=
  if t < d / 2 then ease_out_elastic (t * 2) b (c / 2) d p
  else ease_in_elastic (t * 2 - d) (b + c / 2) (c / 2) d p

def ease_in_back (t b c d : ℝ) (p : Option Parameters) : ℝ :=
  let sv := overshootD p;
  let u := t / d;
  c * u * u * ((sv + 1) * u - sv) + b

def ease_out_back (t b c d : ℝ) (p : Option Parameters) : ℝ :=
  let sv := overshootD p;
  let u := t / d - 1;
  c * (u * u * ((sv + 1) * u + sv) + 1) + b

def ease_in_out_back (t b c d : ℝ) (p : Option Parameters) : ℝ :=
  let sv := overshootD p;
  let u := t / (d / 2);
  if u < 1 then
    let sv := sv * 1.525;
    c / 2 * (u * u * ((sv + 1) * u - sv)) + b
  else
    let sv := sv * 1.525;
    let u := u - 2;
    c / 2 * (u * u * ((sv + 1) * u + sv) + 2) + b

def ease_out_in_back (t b c d : ℝ) (p : Option Parameters) : ℝ :=
  if t < d / 2 then ease_out_back (t * 2) b (c / 2) d p
  else ease_in_back (t * 2 - d) (b + c / 2) (c / 2) d p

def ease_out_bounce (t b c d : ℝ) (_p : Option Parameters) : ℝ :=
  let u := t / d;
  if u < 1 / 2.75 then c * (7.5625 * u * u) + b
  else if u < 2 / 2.75 then
    let u := u - 1.5 / 2.75;
    c * (7.5625 * u * u + 0.75) + b
  else if u < 2.5 / 2.75 then
    let u := u - 2.25 / 2.75;
    c * (7.5625 * u * u + 0.9375) + b
  else
    let u := u - 2.625 / 2.75;
    c * (7.5625 * u * u + 0.984375) + b

def ease_in_bounce (t b c d : ℝ) (_p : Option Parameters) : ℝ :=
  c - ease_out_bounce (d - t) 0 c d Option.none + b

def ease_in_out_bounce (t b c d : ℝ) (_p : Option Parameters) : ℝ :=
  if t < d / 2 then ease_in_bounce (t * 2) 0 c d Option.none * 0.5 + b
  else ease_out_bounce (t * 2 - d) 0 c d Option.none * 0.5 + c * 0.5 + b

def ease_out_in_bounce (t b c d : ℝ) (p : Option Parameters) : ℝ :=
  if t < d / 2 then ease_out_bounce (t * 2) b (c / 2) d p
  else ease_in_bounce (t * 2 - d) (b + c / 2) (c / 2) d p

/-- `ease_random_int_bounce`: `b` at `t = 0`, `b + randint(*p)` for
`0 < t < d`, `b + c` at `t = d`.  `random.randint` is modelled by an
arbitrary oracle `rnd`, consulted at the range `p` (defaulting to `(0, 1)`). -/
def ease_random_int_bounce (rnd : ℤ × ℤ → ℤ) (t b c d : ℝ)
    (p : Option (ℤ × ℤ)) : ℝ :=
  if t < d then
    if t = 0 then b else b + (rnd (p.getD (0, 1)) : ℝ)
  else b + c

end

/-! ## Claim theorems -/

/-- C1: Serial overtime carry is exact.  For a Serial group of two leaf
tweens each with duration 1 and change 10, started and advanced by a single
`update(dt = 1.5)`, the first leaf ends — its attribute reaches the terminal
value `begin + 10 = 10` and its callback fires — and the second leaf is
started within that same update with its local clock `t` equal to `0.5`
(the overtime `1.5 - 1` carried exactly). -/
theorem C1_serial_overtime_carry_exact :
    C1_run.attrs 0 0 = 10 ∧
    (getLeaf C1_run 0).state = .ended ∧
    C1_run.events = [.userCb 1] ∧
    C1_run.active = [1] ∧
    (getLeaf C1_run 1).state = .active ∧
    (getLeaf C1_run 1).t = 1 / 2 := by with_unfolding_all decide

/-- C4: For a Parallel group of three leaves with durations 1, 2 and 3
advanced by three `update(dt = 1)` calls, each child's original callback
fires exactly once at its own natural completion (events `1`, then `2`,
then `3`), the group's own external callback (`4`) fires exactly once, in
the update in which the duration-3 child completes, and the group's
elapsed `t` is then that last child's elapsed (`3`). -/
theorem C4_parallel_group_callback_once :
    C4_run1.events = [.userCb 1] ∧
    C4_run2.events = [.userCb 1, .userCb 2] ∧
    C4_run3.events = [.userCb 1, .userCb 2, .userCb 3, .userCb 4] ∧
    (getParallel C4_run3 0).t = 3 ∧
    (getLeaf C4_run3 2).t = 3 := by with_unfolding_all decide

/-- C5 counterexample: when the last (single) child of a Parallel group
completes naturally — its own and the group's callbacks have fired — the
group's state field is *not* `ended` (the internal completion handler never
assigns it), refuting the claim at this concrete input. -/
theorem C5_counterexample_state_not_ended :
    C5p_run.events = [.userCb 1, .userCb 2] ∧
    ¬ (getParallel C5p_run 0).state = .ended := by with_unfolding_all decide

/-- C5 (amended): on natural completion neither composite assigns its state
field: the completed Parallel group and the exhausted non-looping Serial
group both remain `active` (only `stop()`/restart set `ended`); the
non-looping Serial's own callback still fires exactly once on exhaustion,
and a looping Serial instead resets its index and continues advancement
(its leaf is re-registered active with a reset clock). -/
theorem C5_amended_completion_keeps_active_state :
    (getParallel C5p_run 0).state = .active ∧
    (getSerial C5s_run 0).state = .active ∧
    C5s_run.events = [.userCb 3] ∧
    (getSerial C5l_run 0).current_tween_index = 0 ∧
    C5l_run.active = [0] ∧
    (getLeaf C5l_run 0).t = 0 ∧
    (getLeaf C5l_run 0).state = .active := by with_unfolding_all decide

/-- C6: `repeat(3)` of a duration-1 leaf yields a Serial group whose child
list is three aliased references to that leaf; started and advanced by
three `update(dt = 1)` calls, the leaf's original callback (`1`) fires
exactly once per advance (three times in total) and the wrapping Serial's
own callback (`9`) fires exactly once, during the third advance. -/
theorem C6_repeat_three_aliased :
    tween_repeat 0 (.leaf 0) 3 C6_base =
      .ok (mkSerial (List.replicate 3 (.leaf 0)) .none) ∧
    C6_group.tweens = List.replicate 3 (.leaf 0) ∧
    C6_run1.events = [.userCb 1] ∧
    C6_run2.events = [.userCb 1, .userCb 1] ∧
    C6_run3.events = [.userCb 1, .userCb 1, .userCb 1, .userCb 9] := by with_unfolding_all decide

/-! ### Boundary lemmas for the easing catalog (claim C2) -/

section EaseBoundary

variable (b c d : ℝ) (p : Option Parameters)

theorem ease_linear_bd (hd : 0 < d) :
    ease_linear 0 b c d p = b ∧ ease_linear d b c d p = b + c := by
  have hd0 : d ≠ 0 := ne_of_gt hd
  unfold ease_linear
  constructor
  · simp
  · rw [mul_div_assoc, div_self hd0]
    ring

theorem ease_in_quad_bd (hd : 0 < d) :
    ease_in_quad 0 b c d p = b ∧ ease_in_quad d b c d p = b + c := by
  have hd0 : d ≠ 0 := ne_of_gt hd
  unfold ease_in_quad
  constructor
  · simp
  · rw [div_self hd0]
    ring

theorem ease_out_quad_bd (hd : 0 < d) :
    ease_out_quad 0 b c d p = b ∧ ease_out_quad d b c d p = b + c := by
  have hd0 : d ≠ 0 := ne_of_gt hd
  unfold ease_out_quad
  constructor
  · simp
  · rw [div_self hd0]
    ring

theorem ease_in_out_quad_bd (hd : 0 < d) :
    ease_in_out_quad 0 b c d p = b ∧ ease_in_out_quad d b c d p = b + c := by
  have hd0 : d ≠ 0 := ne_of_gt hd
  have h2 : d / (d / 2) = 2 := by
    rw [div_div_eq_mul_div, mul_comm, mul_div_assoc, div_self hd0]
    ring
  unfold ease_in_out_quad
  constructor
  · rw [zero_div, if_pos (by norm_num)]
    ring
  · rw [h2, if_neg (by norm_num)]
    ring

theorem ease_out_in_quad_bd (hd : 0 < d) :
    ease_out_in_quad 0 b c d p = b ∧ ease_out_in_quad d b c d p = b + c := by
  unfold ease_out_in_quad
  constructor
  · rw [if_pos (by positivity), zero_mul, (ease_out_quad_bd b (c / 2) d p hd).1]
  · rw [if_neg (by linarith), show d * 2 - d = d by ring,
      (ease_in_quad_bd (b + c / 2) (c / 2) d p hd).2]
    ring

theorem ease_in_cubic_bd (hd : 0 < d) :
    ease_in_cubic 0 b c d p = b ∧ ease_in_cubic d b c d p = b + c := by
  have hd0 : d ≠ 0 := ne_of_gt hd
  unfold ease_in_cubic
  constructor
  · simp
  · rw [div_self hd0]
    ring

theorem ease_out_cubic_bd (hd : 0 < d) :
    ease_out_cubic 0 b c d p = b ∧ ease_out_cubic d b c d p = b + c := by
  have hd0 : d ≠ 0 := ne_of_gt hd
  unfold ease_out_cubic
  constructor
  · rw [zero_div]
    ring
  · rw [div_self hd0]
    ring

theorem ease_in_out_cubic_bd (hd : 0 < d) :
    ease_in_out_cubic 0 b c d p = b ∧ ease_in_out_cubic d b c d p = b + c := by
  have hd0 : d ≠ 0 := ne_of_gt hd
  have h2 : d / (d / 2) = 2 := by
    rw [div_div_eq_mul_div, mul_comm, mul_div_assoc, div_self hd0]
    ring
  unfold ease_in_out_cubic
  constructor
  · rw [zero_div, if_pos (by norm_num)]
    ring
  · rw [h2, if_neg (by norm_num)]
    ring

theorem ease_out_in_cubic_bd (hd : 0 < d) :
    ease_out_in_cubic 0 b c d p = b ∧ ease_out_in_cubic d b c d p = b + c := by
  unfold ease_out_in_cubic
  constructor
  · rw [if_pos (by positivity), zero_mul, (ease_out_cubic_bd b (c / 2) d p hd).1]
  · rw [if_neg (by linarith), show d * 2 - d = d by ring,
      (ease_in_cubic_bd (b + c / 2) (c / 2) d p hd).2]
    ring

theorem ease_in_quart_bd (hd : 0 < d) :
    ease_in_quart 0 b c d p = b ∧ ease_in_quart d b c d p = b + c := by
  have hd0 : d ≠ 0 := ne_of_gt hd
  unfold ease_in_quart
  constructor
  · simp
  · rw [div_self hd0]
    ring

theorem ease_out_quart_bd (hd : 0 < d) :
    ease_out_quart 0 b c d p = b ∧ ease_out_quart d b c d p = b + c := by
  have hd0 : d ≠ 0 := ne_of_gt hd
  unfold ease_out_quart
  constructor
  · rw [zero_div]
    ring
  · rw [div_self hd0]
    ring

theorem ease_in_out_quart_bd (hd : 0 < d) :
    ease_in_out_quart 0 b c d p = b ∧ ease_in_out_quart d b c d p = b + c := by
  have hd0 : d ≠ 0 := ne_of_gt hd
  have h2 : d / (d / 2) = 2 := by
    rw [div_div_eq_mul_div, mul_comm, mul_div_assoc, div_self hd0]
    ring
  unfold ease_in_out_quart
  constructor
  · rw [zero_div, if_pos (by norm_num)]
    ring
  · rw [h2, if_neg (by norm_num)]
    ring

theorem ease_out_in_quart_bd (hd : 0 < d) :
    ease_out_in_quart 0 b c d p = b ∧ ease_out_in_quart d b c d p = b + c := by
  unfold ease_out_in_quart
  constructor
  · rw [if_pos (by positivity), zero_mul, (ease_out_quart_bd b (c / 2) d p hd).1]
  · rw [if_neg (by linarith), show d * 2 - d = d by ring,
      (ease_in_quart_bd (b + c / 2) (c / 2) d p hd).2]
    ring

theorem ease_in_quint_bd (hd : 0 < d) :
    ease_in_quint 0 b c d p = b ∧ ease_in_quint d b c d p = b + c := by
  have hd0 : d ≠ 0 := ne_of_gt hd
  unfold ease_in_quint
  constructor
  · simp
  · rw [div_self hd0]
    ring

theorem ease_out_quint_bd (hd : 0 < d) :
    ease_out_quint 0 b c d p = b ∧ ease_out_quint d b c d p = b + c := by
  have hd0 : d ≠ 0 := ne_of_gt hd
  unfold ease_out_quint
  constructor
  · rw [zero_div]
    ring
  · rw [div_self hd0]
    ring

theorem ease_in_out_quint_bd (hd : 0 < d) :
    ease_in_out_quint 0 b c d p = b ∧ ease_in_out_quint d b c d p = b + c := by
  have hd0 : d ≠ 0 := ne_of_gt hd
  have h2 : d / (d / 2) = 2 := by
    rw [div_div_eq_mul_div, mul_comm, mul_div_assoc, div_self hd0]
    ring
  unfold ease_in_out_quint
  constructor
  · rw [zero_div, if_pos (by norm_num)]
    ring
  · rw [h2, if_neg (by norm_num)]
    ring

theorem ease_out_in_quint_bd (hd : 0 < d) :
    ease_out_in_quint 0 b c d p = b ∧ ease_out_in_quint d b c d p = b + c := by
  unfold ease_out_in_quint
  constructor
  · rw [if_pos (by positivity), zero_mul, (ease_out_quint_bd b (c / 2) d p hd).1]
  · rw [if_neg (by linarith), show d * 2 - d = d by ring,
      (ease_in_quint_bd (b + c / 2) (c / 2) d p hd).2]
    ring

theorem ease_in_sine_bd (hd : 0 < d) :
    ease_in_sine 0 b c d p = b ∧ ease_in_sine d b c d p = b + c := by
  have hd0 : d ≠ 0 := ne_of_gt hd
  unfold ease_in_sine HALF_PI
  constructor
  · rw [zero_div, zero_mul, Real.cos_zero]
    ring
  · rw [div_self hd0, one_mul, Real.cos_pi_div_two]
    ring

theorem ease_out_sine_bd (hd : 0 < d) :
    ease_out_sine 0 b c d p = b ∧ ease_out_sine d b c d p = b + c := by
  have hd0 : d ≠ 0 := ne_of_gt hd
  unfold ease_out_sine HALF_PI
  constructor
  · rw [zero_div, zero_mul, Real.sin_zero]
    ring
  · rw [div_self hd0, one_mul, Real.sin_pi_div_two]
    ring

theorem ease_in_out_sine_bd (hd : 0 < d) :
    ease_in_out_sine 0 b c d p = b ∧ ease_in_out_sine d b c d p = b + c := by
  have hd0 : d ≠ 0 := ne_of_gt hd
  unfold ease_in_out_sine
  constructor
  · rw [mul_zero, zero_div, Real.cos_zero]
    ring
  · rw [mul_div_assoc, div_self hd0, mul_one, Real.cos_pi]
    ring

theorem ease_out_in_sine_bd (hd : 0 < d) :
    ease_out_in_sine 0 b c d p = b ∧ ease_out_in_sine d b c d p = b + c := by
  unfold ease_out_in_sine
  constructor
  · rw [if_pos (by positivity), zero_mul, (ease_out_sine_bd b (c / 2) d p hd).1]
  · rw [if_neg (by linarith), show d * 2 - d = d by ring,
      (ease_in_sine_bd (b + c / 2) (c / 2) d p hd).2]
    ring

theorem ease_out_circ_bd (hd : 0 < d) :
    ease_out_circ 0 b c d p = b ∧ ease_out_circ d b c d p = b + c := by
  have hd0 : d ≠ 0 := ne_of_gt hd
  unfold ease_out_circ
  constructor
  · rw [zero_div]
    norm_num
  · rw [div_self hd0]
    norm_num
    ring

theorem ease_in_out_circ_bd (hd : 0 < d) :
    ease_in_out_circ 0 b c d p = b ∧ ease_in_out_circ d b c d p = b + c := by
  have hd0 : d ≠ 0 := ne_of_gt hd
  have h2 : d / (d / 2) = 2 := by
    rw [div_div_eq_mul_div, mul_comm, mul_div_assoc, div_self hd0]
    ring
  unfold ease_in_out_circ
  constructor
  · rw [zero_div, if_pos (by norm_num)]
    norm_num
  · rw [h2, if_neg (by norm_num)]
    norm_num
    ring

theorem ease_out_expo_bd (hd : 0 < d) :
    ease_out_expo 0 b c d p = b ∧ ease_out_expo d b c d p = b + c := by
  have hd0 : d ≠ 0 := ne_of_gt hd
  unfold ease_out_expo
  constructor
  · rw [if_neg (by exact fun h => hd0 h.symm)]
    norm_num
  · rw [if_pos rfl]

theorem ease_in_out_expo_bd (hd : 0 < d) :
    ease_in_out_expo 0 b c d p = b ∧ ease_in_out_expo d b c d p = b + c := by
  have hd0 : d ≠ 0 := ne_of_gt hd
  unfold ease_in_out_expo
  constructor
  · rw [if_pos rfl]
  · rw [if_neg hd0, if_pos rfl]

theorem ease_in_elastic_bd (hd : 0 < d) :
    ease_in_elastic 0 b c d p = b ∧ ease_in_elastic d b c d p = b + c := by
  have hd0 : d ≠ 0 := ne_of_gt hd
  unfold ease_in_elastic
  constructor
  · rw [if_pos rfl]
  · rw [if_neg hd0, div_self hd0, if_pos rfl]

theorem ease_out_elastic_bd (hd : 0 < d) :
    ease_out_elastic 0 b c d p = b ∧ ease_out_elastic d b c d p = b + c := by
  have hd0 : d ≠ 0 := ne_of_gt hd
  unfold ease_out_elastic
  constructor
  · rw [if_pos rfl]
  · rw [if_neg hd0, div_self hd0, if_pos rfl]

theorem ease_in_out_elastic_bd (hd : 0 < d) :
    ease_in_out_elastic 0 b c d p = b ∧ ease_in_out_elastic d b c d p = b + c := by
  have hd0 : d ≠ 0 := ne_of_gt hd
  have h2 : d / (d / 2) = 2 := by
    rw [div_div_eq_mul_div, mul_comm, mul_div_assoc, div_self hd0]
    ring
  unfold ease_in_out_elastic
  constructor
  · rw [if_pos rfl]
  · rw [if_neg hd0, h2, if_pos rfl]

theorem ease_out_in_elastic_bd (hd : 0 < d) :
    ease_out_in_elastic 0 b c d p = b ∧ ease_out_in_elastic d b c d p = b + c := by
  unfold ease_out_in_elastic
  constructor
  · rw [if_pos (by positivity), zero_mul, (ease_out_elastic_bd b (c / 2) d p hd).1]
  · rw [if_neg (by linarith), show d * 2 - d = d by ring,
      (ease_in_elastic_bd (b + c / 2) (c / 2) d p hd).2]
    ring

theorem ease_in_back_bd (hd : 0 < d) :
    ease_in_back 0 b c d p = b ∧ ease_in_back d b c d p = b + c := by
  have hd0 : d ≠ 0 := ne_of_gt hd
  unfold ease_in_back
  constructor
  · rw [zero_div]
    ring
  · rw [div_self hd0]
    ring

theorem ease_out_back_bd (hd : 0 < d) :
    ease_out_back 0 b c d p = b ∧ ease_out_back d b c d p = b + c := by
  have hd0 : d ≠ 0 := ne_of_gt hd
  unfold ease_out_back
  constructor
  · rw [zero_div]
    ring
  · rw [div_self hd0]
    ring

theorem ease_in_out_back_bd (hd : 0 < d) :
    ease_in_out_back 0 b c d p = b ∧ ease_in_out_back d b c d p = b + c := by
  have hd0 : d ≠ 0 := ne_of_gt hd
  have h2 : d / (d / 2) = 2 := by
    rw [div_div_eq_mul_div, mul_comm, mul_div_assoc, div_self hd0]
    ring
  unfold ease_in_out_back
  constructor
  · rw [zero_div, if_pos (by norm_num)]
    ring
  · rw [h2, if_neg (by norm_num)]
    ring

theorem ease_out_in_back_bd (hd : 0 < d) :
    ease_out_in_back 0 b c d p = b ∧ ease_out_in_back d b c d p = b + c := by
  unfold ease_out_in_back
  constructor
  · rw [if_pos (by positivity), zero_mul, (ease_out_back_bd b (c / 2) d p hd).1]
  · rw [if_neg (by linarith), show d * 2 - d = d by ring,
      (ease_in_back_bd (b + c / 2) (c / 2) d p hd).2]
    ring

theorem ease_out_bounce_bd (hd : 0 < d) :
    ease_out_bounce 0 b c d p = b ∧ ease_out_bounce d b c d p = b + c := by
  have hd0 : d ≠ 0 := ne_of_gt hd
  unfold ease_out_bounce
  constructor
  · rw [zero_div, if_pos (by norm_num)]
    ring
  · rw [div_self hd0, if_neg (by norm_num), if_neg (by norm_num), if_neg (by norm_num)]
    norm_num
    ring

theorem ease_in_bounce_bd (hd : 0 < d) :
    ease_in_bounce 0 b c d p = b ∧ ease_in_bounce d b c d p = b + c := by
  unfold ease_in_bounce
  constructor
  · rw [sub_zero, (ease_out_bounce_bd 0 c d Option.none hd).2]
    ring
  · rw [sub_self, (ease_out_bounce_bd 0 c d Option.none hd).1]
    ring

theorem ease_in_out_bounce_bd (hd : 0 < d) :
    ease_in_out_bounce 0 b c d p = b ∧ ease_in_out_bounce d b c d p = b + c := by
  unfold ease_in_out_bounce
  constructor
  · rw [if_pos (by positivity), zero_mul, (ease_in_bounce_bd 0 c d Option.none hd).1]
    ring
  · rw [if_neg (by linarith), show d * 2 - d = d by ring,
      (ease_out_bounce_bd 0 c d Option.none hd).2]
    ring

theorem ease_out_in_bounce_bd (hd : 0 < d) :
    ease_out_in_bounce 0 b c d p = b ∧ ease_out_in_bounce d b c d p = b + c := by
  unfold ease_out_in_bounce
  constructor
  · rw [if_pos (by positivity), zero_mul, (ease_out_bounce_bd b (c / 2) d p hd).1]
  · rw [if_neg (by linarith), show d * 2 - d = d by ring,
      (ease_in_bounce_bd (b + c / 2) (c / 2) d p hd).2]
    ring

theorem ease_random_int_bounce_bd (rnd : ℤ × ℤ → ℤ) (pr : Option (ℤ × ℤ)) (hd : 0 < d) :
    ease_random_int_bounce rnd 0 b c d pr = b ∧
    ease_random_int_bounce rnd d b c d pr = b + c := by
  unfold ease_random_int_bounce
  constructor
  · rw [if_pos hd, if_pos rfl]
  · rw [if_neg (lt_irrefl d)]

end EaseBoundary

/-- C2 counterexample: `ease_in_sine2` is a catalog curve other than the
random-int-bounce curve, yet `ease_in_sine2(0, b, c, d, p) = b + c ≠ b`
already at `b = 0, c = 1, d = 1`: the claimed `f(0, b, c, d, p) = b`
boundary equality fails on the catalog as stated. -/
theorem C2_counterexample_in_sine2 : ¬ ease_in_sine2 0 0 1 1 Option.none = 0 := by
  unfold ease_in_sine2
  rw [zero_div, zero_mul, Real.cos_zero]
  norm_num

/-- C2 (amended): for every easing curve of the catalog except
`ease_in_expo`, `ease_out_in_expo`, `ease_in_circ`, `ease_out_in_circ`
(whose `t = d` value deviates by design constants), `ease_in_sine2` (whose
`t = 0` value is `b + c`) and `ease_in_sine3` (whose `t = d` value is `b`),
and for all `b`, `c`, `d > 0` and parameters `p`, the curve satisfies
`f(0, b, c, d, p) = b` and `f(d, b, c, d, p) = b + c` exactly; the
random-int-bounce curve satisfies both boundary equalities for every
random oracle.  The last three conjuncts certify the deviation of
`ease_in_expo` (`b + c - 0.001·c` at `t = d`), `ease_in_sine2` (`b + c` at
`t = 0`) and `ease_in_sine3` (`b` at `t = d`). -/
theorem C2_amended_boundary_values (b c d : ℝ) (p : Option Parameters)
    (rnd : ℤ × ℤ → ℤ) (pr : Option (ℤ × ℤ)) (hd : 0 < d) :
    (ease_linear 0 b c d p = b ∧ ease_linear d b c d p = b + c) ∧
    (ease_in_quad 0 b c d p = b ∧ ease_in_quad d b c d p = b + c) ∧
    (ease_out_quad 0 b c d p = b ∧ ease_out_quad d b c d p = b + c) ∧
    (ease_in_out_quad 0 b c d p = b ∧ ease_in_out_quad d b c d p = b + c) ∧
    (ease_out_in_quad 0 b c d p = b ∧ ease_out_in_quad d b c d p = b + c) ∧
    (ease_in_cubic 0 b c d p = b ∧ ease_in_cubic d b c d p = b + c) ∧
    (ease_out_cubic 0 b c d p = b ∧ ease_out_cubic d b c d p = b + c) ∧
    (ease_in_out_cubic 0 b c d p = b ∧ ease_in_out_cubic d b c d p = b + c) ∧
    (ease_out_in_cubic 0 b c d p = b ∧ ease_out_in_cubic d b c d p = b + c) ∧
    (ease_in_quart 0 b c d p = b ∧ ease_in_quart d b c d p = b + c) ∧
    (ease_out_quart 0 b c d p = b ∧ ease_out_quart d b c d p = b + c) ∧
    (ease_in_out_quart 0 b c d p = b ∧ ease_in_out_quart d b c d p = b + c) ∧
    (ease_out_in_quart 0 b c d p = b ∧ ease_out_in_quart d b c d p = b + c) ∧
    (ease_in_quint 0 b c d p = b ∧ ease_in_quint d b c d p = b + c) ∧
    (ease_out_quint 0 b c d p = b ∧ ease_out_quint d b c d p = b + c) ∧
    (ease_in_out_quint 0 b c d p = b ∧ ease_in_out_quint d b c d p = b + c) ∧
    (ease_out_in_quint 0 b c d p = b ∧ ease_out_in_quint d b c d p = b + c) ∧
    (ease_in_sine 0 b c d p = b ∧ ease_in_sine d b c d p = b + c) ∧
    (ease_out_sine 0 b c d p = b ∧ ease_out_sine d b c d p = b + c) ∧
    (ease_in_out_sine 0 b c d p = b ∧ ease_in_out_sine d b c d p = b + c) ∧
    (ease_out_in_sine 0 b c d p = b ∧ ease_out_in_sine d b c d p = b + c) ∧
    (ease_out_expo 0 b c d p = b ∧ ease_out_expo d b c d p = b + c) ∧
    (ease_in_out_expo 0 b c d p = b ∧ ease_in_out_expo d b c d p = b + c) ∧
    (ease_out_circ 0 b c d p = b ∧ ease_out_circ d b c d p = b + c) ∧
    (ease_in_out_circ 0 b c d p = b ∧ ease_in_out_circ d b c d p = b + c) ∧
    (ease_in_elastic 0 b c d p = b ∧ ease_in_elastic d b c d p = b + c) ∧
    (ease_out_elastic 0 b c d p = b ∧ ease_out_elastic d b c d p = b + c) ∧
    (ease_in_out_elastic 0 b c d p = b ∧ ease_in_out_elastic d b c d p = b + c) ∧
    (ease_out_in_elastic 0 b c d p = b ∧ ease_out_in_elastic d b c d p = b + c) ∧
    (ease_in_back 0 b c d p = b ∧ ease_in_back d b c d p = b + c) ∧
    (ease_out_back 0 b c d p = b ∧ ease_out_back d b c d p = b + c) ∧
    (ease_in_out_back 0 b c d p = b ∧ ease_in_out_back d b c d p = b + c) ∧
    (ease_out_in_back 0 b c d p = b ∧ ease_out_in_back d b c d p = b + c) ∧
    (ease_in_bounce 0 b c d p = b ∧ ease_in_bounce d b c d p = b + c) ∧
    (ease_out_bounce 0 b c d p = b ∧ ease_out_bounce d b c d p = b + c) ∧
    (ease_in_out_bounce 0 b c d p = b ∧ ease_in_out_bounce d b c d p = b + c) ∧
    (ease_out_in_bounce 0 b c d p = b ∧ ease_out_in_bounce d b c d p = b + c) ∧
    (ease_random_int_bounce rnd 0 b c d pr = b ∧
      ease_random_int_bounce rnd d b c d pr = b + c) ∧
    ease_in_expo d b c d p = b + c - c * 0.001 ∧
    ease_in_sine2 0 b c d p = b + c ∧
    ease_in_sine3 d b c d p = b := by
  have hd0 : d ≠ 0 := ne_of_gt hd
  refine ⟨ease_linear_bd b c d p hd, ease_in_quad_bd b c d p hd,
    ease_out_quad_bd b c d p hd, ease_in_out_quad_bd b c d p hd,
    ease_out_in_quad_bd b c d p hd, ease_in_cubic_bd b c d p hd,
    ease_out_cubic_bd b c d p hd, ease_in_out_cubic_bd b c d p hd,
    ease_out_in_cubic_bd b c d p hd, ease_in_quart_bd b c d p hd,
    ease_out_quart_bd b c d p hd, ease_in_out_quart_bd b c d p hd,
    ease_out_in_quart_bd b c d p hd, ease_in_quint_bd b c d p hd,
    ease_out_quint_bd b c d p hd, ease_in_out_quint_bd b c d p hd,
    ease_out_in_quint_bd b c d p hd, ease_in_sine_bd b c d p hd,
    ease_out_sine_bd b c d p hd, ease_in_out_sine_bd b c d p hd,
    ease_out_in_sine_bd b c d p hd, ease_out_expo_bd b c d p hd,
    ease_in_out_expo_bd b c d p hd, ease_out_circ_bd b c d p hd,
    ease_in_out_circ_bd b c d p hd, ease_in_elastic_bd b c d p hd,
    ease_out_elastic_bd b c d p hd, ease_in_out_elastic_bd b c d p hd,
    ease_out_in_elastic_bd b c d p hd, ease_in_back_bd b c d p hd,
    ease_out_back_bd b c d p hd, ease_in_out_back_bd b c d p hd,
    ease_out_in_back_bd b c d p hd, ease_in_bounce_bd b c d p hd,
    ease_out_bounce_bd b c d p hd, ease_in_out_bounce_bd b c d p hd,
    ease_out_in_bounce_bd b c d p hd, ease_random_int_bounce_bd b c d rnd pr hd,
    ?_, ?_, ?_⟩
  · unfold ease_in_expo
    rw [if_neg hd0, div_self hd0]
    norm_num
    ring
  · unfold ease_in_sine2
    rw [zero_div, zero_mul, Real.cos_zero]
    ring
  · unfold ease_in_sine3 TWO_PI
    rw [div_self hd0, one_mul, mul_comm Real.pi 2, Real.sin_two_pi]
    ring

/-- Witness for `C2_amended_boundary_values`: the duration hypothesis is
satisfiable (at `b = 0, c = 1, d = 1`) and the first boundary pair holds
there. -/
theorem C2_amended_boundary_values_witness :
    (0 : ℝ) < 1 ∧
    (ease_linear 0 0 1 1 Option.none = 0 ∧ ease_linear 1 0 1 1 Option.none = 0 + 1) :=
  ⟨by norm_num,
    (C2_amended_boundary_values 0 1 1 Option.none (fun _ => 0) Option.none
      (by norm_num)).1⟩

/-! ### Registry and state-field helper lemmas -/

@[simp]
theorem pushEvent_leaves (e : Event) (s : EngineState) :
    (pushEvent e s).leaves = s.leaves := rfl

@[simp]
theorem pushEvent_serials (e : Event) (s : EngineState) :
    (pushEvent e s).serials = s.serials := rfl

@[simp]
theorem pushEvent_active (e : Event) (s : EngineState) :
    (pushEvent e s).active = s.active := rfl

@[simp]
theorem pushEvent_paused (e : Event) (s : EngineState) :
    (pushEvent e s).paused = s.paused := rfl

@[simp]
theorem pushEvent_attrs (e : Event) (s : EngineState) :
    (pushEvent e s).attrs = s.attrs := rfl

@[simp]
theorem pushEvent_events (e : Event) (s : EngineState) :
    (pushEvent e s).events = s.events ++ [e] := rfl

@[simp]
theorem setAttr_leaves (o a : Nat) (v : Val) (s : EngineState) :
    (setAttr o a v s).leaves = s.leaves := rfl

@[simp]
theorem setAttr_serials (o a : Nat) (v : Val) (s : EngineState) :
    (setAttr o a v s).serials = s.serials := rfl

@[simp]
theorem setAttr_active (o a : Nat) (v : Val) (s : EngineState) :
    (setAttr o a v s).active = s.active := rfl

@[simp]
theorem setAttr_paused (o a : Nat) (v : Val) (s : EngineState) :
    (setAttr o a v s).paused = s.paused := rfl

@[simp]
theorem setAttr_events (o a : Nat) (v : Val) (s : EngineState) :
    (setAttr o a v s).events = s.events := rfl

theorem setAttr_attrs_self (o a : Nat) (v : Val) (s : EngineState) :
    (setAttr o a v s).attrs o a = v := by
  simp [setAttr]

theorem setAttr_attrs_other (o a o2 a2 : Nat) (v : Val) (s : EngineState)
    (h : ¬ (o2 = o ∧ a2 = a)) : (setAttr o a v s).attrs o2 a2 = s.attrs o2 a2 := by
  simp only [setAttr, if_neg h]

@[simp]
theorem setLeaf_serials (i : Nat) (tw : Leaf) (s : EngineState) :
    (setLeaf i tw s).serials = s.serials := rfl

@[simp]
theorem setLeaf_active (i : Nat) (tw : Leaf) (s : EngineState) :
    (setLeaf i tw s).active = s.active := rfl

@[simp]
theorem setLeaf_paused (i : Nat) (tw : Leaf) (s : EngineState) :
    (setLeaf i tw s).paused = s.paused := rfl

@[simp]
theorem setLeaf_attrs (i : Nat) (tw : Leaf) (s : EngineState) :
    (setLeaf i tw s).attrs = s.attrs := rfl

@[simp]
theorem setLeaf_events (i : Nat) (tw : Leaf) (s : EngineState) :
    (setLeaf i tw s).events = s.events := rfl

@[simp]
theorem setLeaf_leaves_length (i : Nat) (tw : Leaf) (s : EngineState) :
    (setLeaf i tw s).leaves.length = s.leaves.length := by
  simp [setLeaf]

@[simp]
theorem updSerial_leaves (g : Nat) (f : SerialG → SerialG) (s : EngineState) :
    (updSerial g f s).leaves = s.leaves := rfl

@[simp]
theorem updSerial_active (g : Nat) (f : SerialG → SerialG) (s : EngineState) :
    (updSerial g f s).active = s.active := rfl

@[simp]
theorem updSerial_paused (g : Nat) (f : SerialG → SerialG) (s : EngineState) :
    (updSerial g f s).paused = s.paused := rfl

@[simp]
theorem updSerial_attrs (g : Nat) (f : SerialG → SerialG) (s : EngineState) :
    (updSerial g f s).attrs = s.attrs := rfl

@[simp]
theorem updSerial_events (g : Nat) (f : SerialG → SerialG) (s : EngineState) :
    (updSerial g f s).events = s.events := rfl

@[simp]
theorem updSerial_serials_length (g : Nat) (f : SerialG → SerialG) (s : EngineState) :
    (updSerial g f s).serials.length = s.serials.length := by
  simp [updSerial]

theorem getSerial_updSerial_self (g : Nat) (f : SerialG → SerialG) (s : EngineState)
    (h : g < s.serials.length) : getSerial (updSerial g f s) g = f (getSerial s g) := by
  simp [getSerial, updSerial, List.getD_eq_getElem?_getD, List.getElem?_set_self, h]

@[simp]
theorem getSerial_pushEvent (e : Event) (s : EngineState) (g : Nat) :
    getSerial (pushEvent e s) g = getSerial s g := rfl

@[simp]
theorem getSerial_setAttr (o a : Nat) (v : Val) (s : EngineState) (g : Nat) :
    getSerial (setAttr o a v s) g = getSerial s g := rfl

@[simp]
theorem getSerial_setLeaf (i : Nat) (tw : Leaf) (s : EngineState) (g : Nat) :
    getSerial (setLeaf i tw s) g = getSerial s g := rfl

@[simp]
theorem getLeaf_pushEvent (e : Event) (s : EngineState) (i : Nat) :
    getLeaf (pushEvent e s) i = getLeaf s i := rfl

@[simp]
theorem getLeaf_setAttr (o a : Nat) (v : Val) (s : EngineState) (i : Nat) :
    getLeaf (setAttr o a v s) i = getLeaf s i := rfl

@[simp]
theorem getLeaf_updSerial (g : Nat) (f : SerialG → SerialG) (s : EngineState) (i : Nat) :
    getLeaf (updSerial g f s) i = getLeaf s i := rfl

@[simp]
theorem getLeaf_setLeaf_eq (s : EngineState) (i : Nat) (tw : Leaf)
    (h : i < s.leaves.length) : getLeaf (setLeaf i tw s) i = tw := by
  simp [getLeaf, setLeaf, List.getD_eq_getElem?_getD, List.getElem?_set_self, h]

@[simp]
theorem getLeaf_setLeaf_ne (s : EngineState) (i j : Nat) (tw : Leaf)
    (h : i ≠ j) : getLeaf (setLeaf i tw s) j = getLeaf s j := by
  simp [getLeaf, setLeaf, List.getD_eq_getElem?_getD, List.getElem?_set_ne h]

/-- `pause_tweens` leaves the leaf heap untouched. -/
theorem getLeaf_pause_tweens (s : EngineState) (i : Nat) :
    getLeaf (pause_tweens s) i = getLeaf s i := rfl

/-- `validate_tweens_state_and_same_tweener` succeeds exactly on child lists
whose members all belong to this scheduler and are in state `created`. -/
theorem validate_ok_iff (tid : Nat) (children : List Ref) (s : EngineState) :
    validate_tweens_state_and_same_tweener tid children s = .ok () ↔
    ∀ r ∈ children, tweenerOf r s = tid ∧ stateOfRef r s = .created := by
  induction children with
  | nil => simp [validate_tweens_state_and_same_tweener]
  | cons r rest ih =>
    rw [validate_tweens_state_and_same_tweener]
    by_cases h1 : tweenerOf r s ≠ tid
    · simp only [if_pos h1]
      constructor
      · intro h
        cases h
      · intro h
        exact absurd (h r (by simp)).1 h1
    · rw [if_neg h1]
      push_neg at h1
      by_cases h2 : stateOfRef r s ≠ .created
      · simp only [if_pos h2]
        constructor
        · intro h
          cases h
        · intro h
          exact absurd (h r (by simp)).2 h2
      · rw [if_neg h2]
        push_neg at h2
        rw [ih]
        constructor
        · intro h r2 hr2
          rcases List.mem_cons.mp hr2 with h3 | h3
          · subst h3
            exact ⟨h1, h2⟩
          · exact h r2 h3
        · intro h r2 hr2
          exact h r2 (List.mem_cons_of_mem r hr2)

/-- When every child belongs to this scheduler but some child is not in
state `created`, validation fails with the state exception. -/
theorem validate_err_state (tid : Nat) (children : List Ref) (s : EngineState)
    (hsame : ∀ r ∈ children, tweenerOf r s = tid)
    (hbad : ∃ r ∈ children, stateOfRef r s ≠ .created) :
    validate_tweens_state_and_same_tweener tid children s =
      .error .notInAppropriateState := by
  induction children with
  | nil => simp at hbad
  | cons r rest ih =>
    rw [validate_tweens_state_and_same_tweener,
      if_neg (by simp [hsame r (by simp)])]
    by_cases h2 : stateOfRef r s ≠ .created
    · rw [if_pos h2]
    · rw [if_neg h2]
      push_neg at h2
      refine ih (fun r2 hr2 => hsame r2 (List.mem_cons_of_mem r hr2)) ?_
      rcases hbad with ⟨r2, hr2, hbad2⟩
      rcases List.mem_cons.mp hr2 with h3 | h3
      · subst h3
        exact absurd h2 hbad2
      · exact ⟨r2, h3, hbad2⟩

/-- When every child is in state `created` but some child belongs to another
scheduler, validation fails with the foreign-tweener exception. -/
theorem validate_err_tweener (tid : Nat) (children : List Ref) (s : EngineState)
    (hcreated : ∀ r ∈ children, stateOfRef r s = .created)
    (hbad : ∃ r ∈ children, tweenerOf r s ≠ tid) :
    validate_tweens_state_and_same_tweener tid children s =
      .error .belongsToOtherTweener := by
  induction children with
  | nil => simp at hbad
  | cons r rest ih =>
    rw [validate_tweens_state_and_same_tweener]
    by_cases h1 : tweenerOf r s ≠ tid
    · rw [if_pos h1]
    · rw [if_neg h1, if_neg (by simp [hcreated r (by simp)])]
      refine ih (fun r2 hr2 => hcreated r2 (List.mem_cons_of_mem r hr2)) ?_
      rcases hbad with ⟨r2, hr2, hbad2⟩
      rcases List.mem_cons.mp hr2 with h3 | h3
      · subst h3
        exact absurd hbad2 h1
      · exact ⟨r2, h3, hbad2⟩

/-- C9: construction fails fast exactly on misuse.  A leaf with
`duration ≤ 0` fails at creation with the assertion error while a positive
duration constructs the `created`-state leaf; `_Serial`/`_Parallel`
construction succeeds on valid children, raises
`TweenBelongsToOtherTweenerException` when a child (all in `created` state)
belongs to another scheduler, and raises
`TweenNotInAppropriateStateException` when a child (all owned by this
scheduler) is not in the `created` state. -/
theorem C9_construction_fails_fast :
    (∀ (tid o a : Nat) (b c d : Val) (f : EaseId) (delay : Val) (du : Bool) (cb : Cb),
      d ≤ 0 → Tween_init tid o a b c d f delay du cb = .error .assertionError) ∧
    (∀ (tid o a : Nat) (b c d : Val) (f : EaseId) (delay : Val) (du : Bool) (cb : Cb),
      0 < d → Tween_init tid o a b c d f delay du cb =
        .ok { tweener := tid, o := o, a := a, cb := cb, state := .created,
              delay := delay, t := -delay, f := f, b := b, c := c, d := d,
              v := b, delta_update := du }) ∧
    (∀ (tid : Nat) (children : List Ref) (s : EngineState),
      (∀ r ∈ children, tweenerOf r s = tid ∧ stateOfRef r s = .created) →
      (∃ g, Serial_init tid children s = .ok g) ∧
      (∃ g, Parallel_init tid children s = .ok g)) ∧
    (∀ (tid : Nat) (children : List Ref) (s : EngineState),
      (∀ r ∈ children, stateOfRef r s = .created) →
      (∃ r ∈ children, tweenerOf r s ≠ tid) →
      Serial_init tid children s = .error .belongsToOtherTweener ∧
      Parallel_init tid children s = .error .belongsToOtherTweener) ∧
    (∀ (tid : Nat) (children : List Ref) (s : EngineState),
      (∀ r ∈ children, tweenerOf r s = tid) →
      (∃ r ∈ children, stateOfRef r s ≠ .created) →
      Serial_init tid children s = .error .notInAppropriateState ∧
      Parallel_init tid children s = .error .notInAppropriateState) := by
  refine ⟨?_, ?_, ?_, ?_, ?_⟩
  · intro tid o a b c d f delay du cb hle
    rw [Tween_init, if_neg (not_lt.mpr hle)]
  · intro tid o a b c d f delay du cb hlt
    rw [Tween_init, if_pos hlt]
  · intro tid children s h
    have hv := (validate_ok_iff tid children s).mpr h
    exact ⟨⟨_, by rw [Serial_init, hv]; rfl⟩, ⟨_, by rw [Parallel_init, hv]; rfl⟩⟩
  · intro tid children s hcreated hbad
    have hv := validate_err_tweener tid children s hcreated hbad
    exact ⟨by rw [Serial_init, hv]; rfl, by rw [Parallel_init, hv]; rfl⟩
  · intro tid children s hsame hbad
    have hv := validate_err_state tid children s hsame hbad
    exact ⟨by rw [Serial_init, hv]; rfl, by rw [Parallel_init, hv]; rfl⟩

/-- Witness for `C9_construction_fails_fast`: a zero-duration leaf fails the
assertion, and a serial over the one valid `created` leaf of `C6_base`
constructs successfully. -/
theorem C9_construction_fails_fast_witness :
    Tween_init 0 0 0 0 10 0 .linear 0 false .none = .error .assertionError ∧
    (∃ g, Serial_init 0 [.leaf 0] C6_base = .ok g) := by
  constructor
  · exact C9_construction_fails_fast.1 0 0 0 0 10 0 .linear 0 false .none (by norm_num)
  · refine (C9_construction_fails_fast.2.2.1 0 [.leaf 0] C6_base ?_).1
    intro r hr
    rw [List.mem_singleton] at hr
    subst hr
    exact ⟨rfl, rfl⟩

/-- C10 (implicit): `pause_tweens`/`resume_tweens` move every tween between
the registries without modifying any leaf record (state, clock `t`, cached
`v`): the leaf heap is untouched.  After `pause_tweens`, a previously active
tween of an owner is reported by `get_all_tweens_for` under the `paused`
filter while its own state field is unchanged (still `active` if it was
active); only the per-tween `pause_tween`/`resume_tween` operations update
the state field (to `paused` resp. `active`) while moving the tween. -/
theorem C10_bulk_pause_keeps_state_field :
    (∀ s : EngineState,
      (pause_tweens s).leaves = s.leaves ∧
      (pause_tweens s).paused = s.paused ++ s.active ∧
      (pause_tweens s).active = [] ∧
      (resume_tweens s).leaves = s.leaves ∧
      (resume_tweens s).active = s.active ++ s.paused ∧
      (resume_tweens s).paused = []) ∧
    (∀ (s : EngineState) (i : Nat), i ∈ s.active →
      i ∈ get_all_tweens_for ((getLeaf s i).o) (some .paused) (pause_tweens s) ∧
      getLeaf (pause_tweens s) i = getLeaf s i) ∧
    (∀ (s : EngineState) (i : Nat), i ∈ s.active → i < s.leaves.length →
      (getLeaf (pause_tween i s) i).state = .paused ∧
      (pause_tween i s).paused = s.paused ++ [i] ∧
      (pause_tween i s).active = s.active.erase i) ∧
    (∀ (s : EngineState) (i : Nat), i ∈ s.paused → i < s.leaves.length →
      (getLeaf (resume_tween i s) i).state = .active ∧
      (resume_tween i s).active = s.active ++ [i] ∧
      (resume_tween i s).paused = s.paused.erase i) := by
  refine ⟨?_, ?_, ?_, ?_⟩
  · intro s
    exact ⟨rfl, rfl, rfl, rfl, rfl, rfl⟩
  · intro s i hi
    refine ⟨?_, rfl⟩
    rw [get_all_tweens_for]
    have hmem : i ∈ (pause_tweens s).paused := by
      rw [pause_tweens]
      simpa using Or.inr hi
    have hfilter : i ∈ (pause_tweens s).paused.filter
        (fun j => (getLeaf (pause_tweens s) j).o == (getLeaf s i).o) := by
      refine List.mem_filter.mpr ⟨hmem, ?_⟩
      rw [getLeaf_pause_tweens]
      exact beq_self_eq_true _
    simp only [if_neg, if_pos, List.mem_append, reduceCtorEq, or_false, false_or,
      Option.some.injEq, reduceCtorEq]
    right
    exact hfilter
  · intro s i hi hlen
    simp only [pause_tween, if_pos hi]
    refine ⟨?_, rfl, rfl⟩
    rw [getLeaf_setLeaf_eq { s with active := s.active.erase i, paused := s.paused ++ [i] }
      i _ hlen]
  · intro s i hi hlen
    simp only [resume_tween, if_pos hi]
    refine ⟨?_, rfl, rfl⟩
    rw [getLeaf_setLeaf_eq { s with paused := s.paused.erase i, active := s.active ++ [i] }
      i _ hlen]

/-- Witness for `C10_bulk_pause_keeps_state_field` on the two-leaf scenario
`C10_s0`: after `pause_tweens`, leaf `0` is reported under the `paused`
filter with its state field still `active`; `pause_tween` alone flips the
state field. -/
theorem C10_bulk_pause_keeps_state_field_witness :
    (0 ∈ C10_s0.active ∧ 0 < C10_s0.leaves.length) ∧
    0 ∈ get_all_tweens_for 0 (some .paused) (pause_tweens C10_s0) ∧
    (getLeaf (pause_tweens C10_s0) 0).state = .active ∧
    (getLeaf (pause_tween 0 C10_s0) 0).state = .paused := by
  refine ⟨⟨by decide, by decide⟩, ?_, ?_, ?_⟩
  · have h := (C10_bulk_pause_keeps_state_field.2.1 C10_s0 0 (by decide)).1
    simpa using h
  · rw [(C10_bulk_pause_keeps_state_field.2.1 C10_s0 0 (by decide)).2]
    rfl
  · exact (C10_bulk_pause_keeps_state_field.2.2.1 C10_s0 0 (by decide) (by decide)).1

/-- C8: `stop()` (i.e. `Tweener.remove_tween`) on an active leaf mid-flight
removes it from both the active and paused registries, sets its state to
`ended`, fires no callback (the event log is unchanged), and any subsequent
`update(dt)` call leaves the whole state — in particular the leaf's clock
`t` and the owner attribute store — untouched. -/
theorem C8_stop_silently_removes (b c d T : Val) (k : Nat) (A : Nat → Nat → Val) :
    (C8_s0 b c d T k A).active = [0] ∧
    (getLeaf (C8_s0 b c d T k A) 0).state = .active ∧
    (remove_tween 0 (C8_s0 b c d T k A)).active = [] ∧
    (remove_tween 0 (C8_s0 b c d T k A)).paused = [] ∧
    (getLeaf (remove_tween 0 (C8_s0 b c d T k A)) 0).state = .ended ∧
    (remove_tween 0 (C8_s0 b c d T k A)).events = (C8_s0 b c d T k A).events ∧
    ∀ (fuel : Nat) (dt : Val),
      update fuel dt (remove_tween 0 (C8_s0 b c d T k A)) =
        remove_tween 0 (C8_s0 b c d T k A) :=
  ⟨rfl, rfl, rfl, rfl, rfl, rfl, fun _ _ => rfl⟩

/-! ### Delta-update mode (claim C7) -/

theorem C7_run_cons (pr : Val × Val) (rest : List (Val × Val)) (s : EngineState) :
    C7_run (pr :: rest) s = C7_run rest (update 9 pr.2 (extInc pr.1 s)) := rfl

theorem C7_extInc_mid (x : Val) (A : Nat → Nat → Val) (b c d T v : Val) :
    extInc x (C7_mid A b c d T v) = C7_mid (setAt A (A 0 0 + x)) b c d T v := by
  unfold extInc C7_mid setAt
  congr 1
  funext o a
  by_cases h : o = 0 ∧ a = 0
  · rw [if_pos h, if_pos h, h.1, h.2]
  · rw [if_neg h, if_neg h]

theorem C7_extInc_done (x : Val) (A : Nat → Nat → Val) (l : Leaf) :
    extInc x (C7_done A l) = C7_done (setAt A (A 0 0 + x)) l := by
  unfold extInc C7_done setAt
  congr 1
  funext o a
  by_cases h : o = 0 ∧ a = 0
  · rw [if_pos h, if_pos h, h.1, h.2]
  · rw [if_neg h, if_neg h]

/-- One `update` on the mid-flight delta leaf that does not reach the
duration: the clock advances, the cached value becomes the linear value at
the new clock, and the owner attribute is incremented by the value delta. -/
theorem C7_step_live (fuel : Nat) (A : Nat → Nat → Val) (b c d T v dt : Val)
    (h0 : 0 ≤ T + dt) (hlt : T + dt < d) :
    update fuel dt (C7_mid A b c d T v) =
      C7_mid (setAt A (A 0 0 + (c * (T + dt) / d + b - v))) b c d (T + dt)
        (c * (T + dt) / d + b) := by
  unfold update C7_mid advance
  simp only [List.foldl_cons, List.foldl_nil, getLeaf, List.getD_cons_zero, setLeaf,
    setAttr, applyEase, List.set]
  rw [if_pos h0, if_neg (not_le.mpr hlt), if_neg (not_le.mpr hlt)]
  simp only [if_pos rfl]
  rfl

/-- One `update` on the mid-flight delta leaf that reaches the duration:
the curve is evaluated at `d` (clamped), the attribute receives the final
delta, and the leaf is unregistered and `ended` without a callback. -/
theorem C7_step_end (fuel : Nat) (A : Nat → Nat → Val) (b c d T v dt : Val)
    (h0 : 0 ≤ T + dt) (hge : d ≤ T + dt) :
    update fuel dt (C7_mid A b c d T v) =
      C7_done (setAt A (A 0 0 + (c * d / d + b - v)))
        { tweener := 0, o := 0, a := 0, cb := .none, state := .ended, delay := 0,
          t := T + dt, f := .linear, b := b, c := c, d := d, v := c * d / d + b,
          delta_update := true } := by
  unfold update C7_mid advance
  simp only [List.foldl_cons, List.foldl_nil, getLeaf, List.getD_cons_zero, setLeaf,
    setAttr, applyEase, List.set]
  rw [if_pos h0, if_pos hge, if_pos hge]
  simp only [if_pos rfl]
  rfl

theorem C7_setAt_self (A : Nat → Nat → Val) (w : Val) : setAt A w 0 0 = w := by
  simp [setAt]

/-- Once the delta leaf has completed, further frames only accumulate the
external increments: `update` no longer touches anything. -/
theorem C7_run_from_done (frames : List (Val × Val)) :
    ∀ (A : Nat → Nat → Val) (l : Leaf),
    (C7_run frames (C7_done A l)).attrs 0 0 = A 0 0 + sumexts frames := by
  induction frames with
  | nil =>
    intro A l
    simp [C7_run, sumexts, C7_done]
  | cons pr rest ih =>
    intro A l
    rw [C7_run_cons, C7_extInc_done, show update 9 pr.2 (C7_done (setAt A (A 0 0 + pr.1)) l) =
      C7_done (setAt A (A 0 0 + pr.1)) l from rfl, ih, C7_setAt_self]
    simp [sumexts]
    ring

/-- Telescoping invariant for the mid-flight delta leaf: over any frame
list with non-negative steps whose total time reaches the remaining
duration, the attribute gains exactly the external increments plus the
remaining tween change `b + c - v`. -/
theorem C7_aux (frames : List (Val × Val)) :
    ∀ (A : Nat → Nat → Val) (b c d T v : Val), 0 < d → 0 ≤ T → T < d →
    (∀ pr ∈ frames, 0 ≤ pr.2) → d ≤ T + sumdts frames →
    (C7_run frames (C7_mid A b c d T v)).attrs 0 0 =
      A 0 0 + sumexts frames + (b + c - v) := by
  induction frames with
  | nil =>
    intro A b c d T v hd hT0 hTd hdts hsum
    exfalso
    simp [sumdts] at hsum
    linarith
  | cons pr rest ih =>
    intro A b c d T v hd hT0 hTd hdts hsum
    obtain ⟨x, dt⟩ := pr
    have hdt : (0:Val) ≤ dt := hdts (x, dt) (by simp)
    have hd0 : d ≠ 0 := ne_of_gt hd
    rw [C7_run_cons, C7_extInc_mid]
    rcases lt_or_le (T + dt) d with hlt | hge
    · rw [C7_step_live 9 _ b c d T v dt (by linarith) hlt]
      have hih := ih (setAt (setAt A (A 0 0 + x))
          ((setAt A (A 0 0 + x)) 0 0 + (c * (T + dt) / d + b - v)))
        b c d (T + dt) (c * (T + dt) / d + b) hd (by linarith) hlt
        (fun q hq => hdts q (by simp [hq]))
        (by simp only [sumdts, List.map_cons, List.sum_cons] at hsum ⊢; linarith)
      rw [hih, C7_setAt_self, C7_setAt_self]
      simp only [sumexts, List.map_cons, List.sum_cons]
      ring
    · rw [C7_step_end 9 _ b c d T v dt (by linarith) hge]
      rw [C7_run_from_done rest, C7_setAt_self, C7_setAt_self]
      have hcd : c * d / d = c := by field_simp
      rw [hcd]
      simp only [sumexts, List.map_cons, List.sum_cons]
      ring

/-- `start_tween(immediate=False)` on the C7 leaf lands exactly in the
mid-flight shape with clock `0` and cached value `b`. -/
theorem C7_s0_mid (A : Nat → Nat → Val) (b c d : Val) :
    C7_s0 A b c d = C7_mid A b c d 0 b := by
  with_unfolding_all rfl

/-- C7: delta-update mode composes non-destructively with external writers.
In general, for a delta-mode linear leaf `begin b, change c, duration d > 0`
and any frame sequence of external increments and non-negative time steps
whose total time reaches `d`, the final attribute value is the initial
value plus the sum of the external increments plus exactly `c` (the deltas
applied by the completed tween telescope to its change).  In particular,
with `+1` external increments per frame and a `change +10, duration 1`
tween advanced in two `update(dt = 0.5)` steps, the final value is
`initial + 2 + 10`. -/
theorem C7_delta_mode_composes :
    (∀ (frames : List (Val × Val)) (A : Nat → Nat → Val) (b c d : Val),
      0 < d → (∀ pr ∈ frames, 0 ≤ pr.2) → d ≤ sumdts frames →
      (C7_run frames (C7_s0 A b c d)).attrs 0 0 = A 0 0 + sumexts frames + c) ∧
    (∀ A : Nat → Nat → Val,
      (C7_run [(1, 1 / 2), (1, 1 / 2)] (C7_s0 A 0 10 1)).attrs 0 0 =
        A 0 0 + 2 + 10) := by
  have main : ∀ (frames : List (Val × Val)) (A : Nat → Nat → Val) (b c d : Val),
      0 < d → (∀ pr ∈ frames, 0 ≤ pr.2) → d ≤ sumdts frames →
      (C7_run frames (C7_s0 A b c d)).attrs 0 0 = A 0 0 + sumexts frames + c := by
    intro frames A b c d hd hdts hsum
    rw [C7_s0_mid]
    rw [C7_aux frames A b c d 0 b hd le_rfl hd hdts (by linarith)]
    ring
  refine ⟨main, ?_⟩
  intro A
  rw [main [(1, 1 / 2), (1, 1 / 2)] A 0 10 1 (by norm_num)
    (by with_unfolding_all decide) (by with_unfolding_all decide)]
  norm_num [sumexts]

/-- Witness for `C7_delta_mode_composes`, at the all-5 initial attribute
store: the hypotheses hold for the two-frame schedule and the final value
is `5 + 2 + 10`. -/
theorem C7_delta_mode_composes_witness :
    (0 : Val) < 1 ∧
    (C7_run [(1, 1 / 2), (1, 1 / 2)] (C7_s0 (fun _ _ => 5) 0 10 1)).attrs 0 0 =
      5 + 2 + 10 := by
  refine ⟨by norm_num, ?_⟩
  have h := C7_delta_mode_composes.1 [(1, 1 / 2), (1, 1 / 2)] (fun _ _ => 5) 0 10 1
    (by norm_num) (by with_unfolding_all decide) (by with_unfolding_all decide)
  rw [h]
  norm_num [sumexts]

/-! ### Serial skip-loop machinery (claim C3) -/

@[simp] theorem pushEvents_leaves (es : List Event) (s : EngineState) : (pushEvents es s).leaves = s.leaves := rfl
@[simp] theorem pushEvents_serials (es : List Event) (s : EngineState) : (pushEvents es s).serials = s.serials := rfl
@[simp] theorem pushEvents_active (es : List Event) (s : EngineState) : (pushEvents es s).active = s.active := rfl
@[simp] theorem pushEvents_paused (es : List Event) (s : EngineState) : (pushEvents es s).paused = s.paused := rfl
@[simp] theorem pushEvents_attrs (es : List Event) (s : EngineState) : (pushEvents es s).attrs = s.attrs := rfl
@[simp] theorem pushEvents_events (es : List Event) (s : EngineState) : (pushEvents es s).events = s.events ++ es := rfl
@[simp] theorem getSerial_pushEvents (es : List Event) (s : EngineState) (g : Nat) : getSerial (pushEvents es s) g = getSerial s g := rfl
@[simp] theorem getLeaf_pushEvents (es : List Event) (s : EngineState) (i : Nat) : getLeaf (pushEvents es s) i = getLeaf s i := rfl

@[simp] theorem cbEvents_nil (s : EngineState) : cbEvents s [] = [] := rfl

theorem cbEvents_cons (s : EngineState) (i : Nat) (l : List Nat) :
    cbEvents s (i :: l) = cbEvent (getLeaf s i).cb ++ cbEvents s l := by
  cases h : (getLeaf s i).cb <;> simp [cbEvents, cbEvent, List.filterMap_cons, h]

theorem cbEvents_congr (s1 s2 : EngineState) (l : List Nat)
    (h : ∀ i, getLeaf s1 i = getLeaf s2 i) : cbEvents s1 l = cbEvents s2 l := by
  simp only [cbEvents, h]

theorem invoke_plain (f : Nat) (cb : Cb) (r : Ref) (s : EngineState) (h : plainCb cb) :
    (if cb ≠ .none then exec (f + 1) (.invoke cb r) s else s) =
      pushEvents (cbEvent cb) s := by
  rcases h with h | ⟨k, h⟩ <;> subst h
  · simp only [ne_eq, not_true_eq_false, if_false, cbEvent]
    show s = pushEvents [] s
    simp [pushEvents]
  · rw [if_pos (by simp)]
    conv_lhs => rw [exec]
    rfl

theorem get_next_at (g : Nat) (s : EngineState) (l1 l2 : List Nat)
    (hT : (getSerial s g).tweens = (l1 ++ l2).map Ref.leaf)
    (hI : (getSerial s g).current_tween_index = (l1.length : Int) - 1) :
    get_next_tween g s = l2.head?.map Ref.leaf := by
  simp only [get_next_tween, pyIndex]
  rw [hT, hI]
  cases l2 with
  | nil =>
    rw [if_pos (by simp)]
    rfl
  | cons j rest =>
    rw [if_neg (by simp)]
    rw [if_pos (by omega)]
    have h1 : ((l1.length : Int) - 1 + 1).toNat = l1.length := by omega
    rw [h1, List.get?_map, List.get?_append_right (le_refl _)]
    simp

theorem start_tween_active (i : Nat) (imm : Bool) (s : EngineState) :
    (start_tween i imm s).active = s.active.erase i ++ [i] := by
  simp only [start_tween, remove_tween]
  cases imm <;> simp

theorem start_tween_paused (i : Nat) (imm : Bool) (s : EngineState) :
    (start_tween i imm s).paused = s.paused.erase i := by
  simp only [start_tween, remove_tween]
  cases imm <;> simp

theorem start_tween_events (i : Nat) (imm : Bool) (s : EngineState) :
    (start_tween i imm s).events = s.events := by
  simp only [start_tween, remove_tween]
  cases imm <;> simp

theorem start_tween_serials (i : Nat) (imm : Bool) (s : EngineState) :
    (start_tween i imm s).serials = s.serials := by
  simp only [start_tween, remove_tween]
  cases imm <;> simp

theorem start_tween_leaf_frame (i j : Nat) (imm : Bool) (s : EngineState) (h : i ≠ j) :
    getLeaf (start_tween i imm s) j = getLeaf s j := by
  simp only [start_tween, remove_tween, getLeaf, setLeaf, setAttr]
  cases imm <;>
    simp [List.getD_eq_getElem?_getD, List.getElem?_set_ne h]

theorem start_tween_leaf_self (i : Nat) (imm : Bool) (s : EngineState)
    (h : i < s.leaves.length) :
    getLeaf (start_tween i imm s) i =
      { getLeaf s i with t := -(getLeaf s i).delay,
                         v := (getLeaf s i).b,
                         state := .active } := by
  simp only [start_tween, remove_tween, getLeaf, setLeaf, setAttr]
  cases imm <;>
    simp [List.getD_eq_getElem?_getD, List.getElem?_set_self, h]

theorem start_tween_attrs_other (i : Nat) (imm : Bool) (s : EngineState) (o a : Nat)
    (hi : i < s.leaves.length) (h : ¬ (o = (getLeaf s i).o ∧ a = (getLeaf s i).a)) :
    (start_tween i imm s).attrs o a = s.attrs o a := by
  simp only [start_tween, remove_tween, getLeaf, setLeaf, setAttr] at h ⊢
  cases imm
  · simp
  · simp only [if_pos rfl]
    simp [List.getD_eq_getElem?_getD, List.getElem?_set_self, hi] at h ⊢
    intro h1 h2
    exact absurd h2 (h h1)


theorem start_tween_leaves_length (i : Nat) (imm : Bool) (s : EngineState) :
    (start_tween i imm s).leaves.length = s.leaves.length := by
  simp only [start_tween, remove_tween]
  cases imm <;> simp

theorem exec_start_leaf (f : Nat) (i : Nat) (imm : Bool) (s : EngineState) :
    exec (f + 1) (.start (.leaf i) imm) s = start_tween i imm s := by
  conv_lhs => rw [exec]

theorem getSerial_congr (s1 s2 : EngineState) (g : Nat) (h : s1.serials = s2.serials) :
    getSerial s1 g = getSerial s2 g := by
  simp [getSerial, h]

theorem C3_live_step (first g : Nat) (ot : Val) (f : Nat) (s : EngineState)
    (hfuel : 2 ≤ f) (hG : g < s.serials.length)
    (hLenf : first < s.leaves.length)
    (hnotskip : ¬ (getLeaf s first).d ≤ ot) :
    (exec f (.serialLoop g ot (.leaf first)) s).active = s.active.erase first ++ [first] ∧
    (exec f (.serialLoop g ot (.leaf first)) s).paused = s.paused.erase first ∧
    (exec f (.serialLoop g ot (.leaf first)) s).events = s.events ∧
    (∀ j : Nat, j ≠ first →
      getLeaf (exec f (.serialLoop g ot (.leaf first)) s) j = getLeaf s j) ∧
    getLeaf (exec f (.serialLoop g ot (.leaf first)) s) first =
      { getLeaf s first with cb := .serial g,
                             t := -(getLeaf s first).delay + ot,
                             v := (getLeaf s first).b,
                             state := .active } ∧
    (∀ (o a : Nat), ¬ (o = (getLeaf s first).o ∧ a = (getLeaf s first).a) →
      (exec f (.serialLoop g ot (.leaf first)) s).attrs o a = s.attrs o a) ∧
    (exec f (.serialLoop g ot (.leaf first)) s).serials.length = s.serials.length ∧
    getSerial (exec f (.serialLoop g ot (.leaf first)) s) g =
      { getSerial s g with current_tween_cb := (getLeaf s first).cb } := by
  obtain ⟨f1, rfl⟩ : ∃ f1, f = f1 + 1 := ⟨f - 1, by omega⟩
  obtain ⟨f2, rfl⟩ : ∃ f2, f1 = f2 + 1 := ⟨f1 - 1, by omega⟩
  have hstep : exec (f2 + 1 + 1) (Op.serialLoop g ot (.leaf first)) s =
      addT (.leaf first) ot (start_tween first
        ((getSerial (setCbRef (.leaf first) (.serial g)
          (updSerial g (fun ser => { ser with current_tween_cb := cbOf (.leaf first) s })
            s)) g).immediate)
        (setCbRef (.leaf first) (.serial g)
          (updSerial g (fun ser => { ser with current_tween_cb := cbOf (.leaf first) s })
            s))) := by
    conv_lhs => rw [exec]
    simp only [dOf]
    rw [if_neg hnotskip]
    simp only [exec_start_leaf]
  rw [hstep]
  set sB := setCbRef (.leaf first) (.serial g)
    (updSerial g (fun ser => { ser with current_tween_cb := cbOf (.leaf first) s }) s)
    with hsB
  set imm0 := (getSerial sB g).immediate with himm0
  have hBactive : sB.active = s.active := by
    rw [hsB]
    simp [setCbRef]
  have hBpaused : sB.paused = s.paused := by
    rw [hsB]
    simp [setCbRef]
  have hBevents : sB.events = s.events := by
    rw [hsB]
    simp [setCbRef]
  have hBattrs : sB.attrs = s.attrs := by
    rw [hsB]
    simp [setCbRef]
  have hBlen : sB.leaves.length = s.leaves.length := by
    rw [hsB]
    simp [setCbRef]
  have hBslen : sB.serials.length = s.serials.length := by
    rw [hsB]
    simp [setCbRef]
  have hBleaf_ne : ∀ j, j ≠ first → getLeaf sB j = getLeaf s j := by
    intro j hj
    rw [hsB]
    simp only [setCbRef]
    rw [getLeaf_setLeaf_ne _ _ _ _ (Ne.symm hj)]
    simp
  have hBleaf_self : getLeaf sB first = { getLeaf s first with cb := .serial g } := by
    rw [hsB]
    simp only [setCbRef]
    rw [getLeaf_setLeaf_eq (updSerial g
      (fun ser => { ser with current_tween_cb := cbOf (.leaf first) s }) s) first _
      (by simpa using hLenf)]
    simp
  have hBser : getSerial sB g =
      { getSerial s g with current_tween_cb := (getLeaf s first).cb } := by
    rw [hsB]
    simp only [setCbRef, getSerial_setLeaf]
    rw [getSerial_updSerial_self g _ s hG]
    simp [cbOf]
  have hXlen : first < (start_tween first imm0 sB).leaves.length := by
    rw [start_tween_leaves_length, hBlen]
    exact hLenf
  refine ⟨?_, ?_, ?_, ?_, ?_, ?_, ?_, ?_⟩
  · simp only [addT, setLeaf_active, start_tween_active, hBactive]
  · simp only [addT, setLeaf_paused, start_tween_paused, hBpaused]
  · simp only [addT, setLeaf_events, start_tween_events, hBevents]
  · intro j hj
    simp only [addT]
    rw [getLeaf_setLeaf_ne _ _ _ _ (Ne.symm hj), start_tween_leaf_frame _ _ _ _
      (Ne.symm hj), hBleaf_ne j hj]
  · simp only [addT]
    rw [getLeaf_setLeaf_eq (start_tween first imm0 sB) first _ hXlen]
    rw [start_tween_leaf_self first imm0 sB (by rw [hBlen]; exact hLenf)]
    rw [hBleaf_self]
  · intro o a h
    simp only [addT, setLeaf_attrs]
    rw [start_tween_attrs_other first imm0 sB o a (by rw [hBlen]; exact hLenf)
      (by rw [hBleaf_self]; exact h), hBattrs]
  · simp only [addT, setLeaf_serials]
    rw [show (start_tween first imm0 sB).serials = sB.serials from
      start_tween_serials first imm0 sB, hBslen]
  · simp only [addT]
    rw [getSerial_setLeaf, getSerial_congr (start_tween first imm0 sB) sB g
      (start_tween_serials first imm0 sB), hBser]


theorem applyTerminal_leaf (i : Nat) (s : EngineState) :
    applyTerminal (.leaf i) s =
      setAttr (getLeaf s i).o (getLeaf s i).a
        (applyEase (getLeaf s i).f (getLeaf s i).d (getLeaf s i).b (getLeaf s i).c
          (getLeaf s i).d) s := rfl

@[simp] theorem incIdx_leaves (g : Nat) (s : EngineState) : (incIdx g s).leaves = s.leaves := rfl
@[simp] theorem incIdx_active (g : Nat) (s : EngineState) : (incIdx g s).active = s.active := rfl
@[simp] theorem incIdx_paused (g : Nat) (s : EngineState) : (incIdx g s).paused = s.paused := rfl
@[simp] theorem incIdx_attrs (g : Nat) (s : EngineState) : (incIdx g s).attrs = s.attrs := rfl
@[simp] theorem incIdx_events (g : Nat) (s : EngineState) : (incIdx g s).events = s.events := rfl
@[simp] theorem incIdx_serials_length (g : Nat) (s : EngineState) :
    (incIdx g s).serials.length = s.serials.length := by
  simp [incIdx]
@[simp] theorem getLeaf_incIdx (g : Nat) (s : EngineState) (i : Nat) :
    getLeaf (incIdx g s) i = getLeaf s i := rfl

theorem C3_skip_step (first g : Nat) (ot : Val) (f2 : Nat) (s : EngineState)
    (hskip : (getLeaf s first).d ≤ ot) (hplain : plainCb (getLeaf s first).cb) :
    exec (f2 + 1 + 1) (.serialLoop g ot (.leaf first)) s =
      (match get_next_tween g (setAttr (getLeaf s first).o (getLeaf s first).a
          (applyEase (getLeaf s first).f (getLeaf s first).d (getLeaf s first).b
            (getLeaf s first).c (getLeaf s first).d)
          (pushEvents (cbEvent (getLeaf s first).cb) s)) with
       | Option.none => exec (f2 + 1) (.callOwnCb g)
          (setAttr (getLeaf s first).o (getLeaf s first).a
            (applyEase (getLeaf s first).f (getLeaf s first).d (getLeaf s first).b
              (getLeaf s first).c (getLeaf s first).d)
            (pushEvents (cbEvent (getLeaf s first).cb) s))
       | some tw2 => exec (f2 + 1) (.serialLoop g ot tw2)
          (incIdx g (setAttr (getLeaf s first).o (getLeaf s first).a
            (applyEase (getLeaf s first).f (getLeaf s first).d (getLeaf s first).b
              (getLeaf s first).c (getLeaf s first).d)
            (pushEvents (cbEvent (getLeaf s first).cb) s)))) := by
  conv_lhs => rw [exec]
  simp only [dOf]
  rw [if_pos hskip]
  simp only [cbOf]
  rw [invoke_plain f2 _ _ s hplain]
  rw [applyTerminal_leaf]
  simp only [getLeaf_pushEvents]

theorem exec_callOwnCb (f3 : Nat) (g : Nat) (s : EngineState)
    (hplain : plainCb (getSerial s g).cb) :
    exec (f3 + 1 + 1) (.callOwnCb g) s = pushEvents (cbEvent (getSerial s g).cb) s := by
  conv_lhs => rw [exec]
  rw [invoke_plain f3 _ _ s hplain]


theorem C3_loop (ids : List Nat) :
    ∀ (pre : List Nat) (first : Nat) (g : Nat) (ot : Val) (f : Nat) (s : EngineState),
    ids.length + 3 ≤ f →
    g < s.serials.length →
    (getSerial s g).tweens = (pre ++ first :: ids).map Ref.leaf →
    (getSerial s g).current_tween_index = (pre.length : Int) →
    (∀ i ∈ first :: ids, i < s.leaves.length) →
    (∀ i ∈ first :: ids, plainCb (getLeaf s i).cb) →
    (∀ i ∈ first :: ids, i ∉ s.active) →
    (∀ i ∈ first :: ids, i ∉ s.paused) →
    (first :: ids).Nodup →
    ((first :: ids).map (fun i => ((getLeaf s i).o, (getLeaf s i).a))).Nodup →
    plainCb (getSerial s g).cb →
    ((∀ i2 : Nat,
        (∀ l ∈ ((first :: ids).dropWhile
            (fun i => decide ((getLeaf s i).d ≤ ot))).take 1, i2 ≠ l) →
        getLeaf (exec f (.serialLoop g ot (.leaf first)) s) i2 = getLeaf s i2) ∧
     (∀ i ∈ (first :: ids).takeWhile (fun i => decide ((getLeaf s i).d ≤ ot)),
        (exec f (.serialLoop g ot (.leaf first)) s).attrs (getLeaf s i).o (getLeaf s i).a =
          applyEase (getLeaf s i).f (getLeaf s i).d (getLeaf s i).b (getLeaf s i).c
            (getLeaf s i).d) ∧
     (∀ (o a : Nat),
        (o, a) ∉ (first :: ids).map (fun i => ((getLeaf s i).o, (getLeaf s i).a)) →
        (exec f (.serialLoop g ot (.leaf first)) s).attrs o a = s.attrs o a) ∧
     (match (first :: ids).dropWhile (fun i => decide ((getLeaf s i).d ≤ ot)) with
      | live :: _ =>
          (exec f (.serialLoop g ot (.leaf first)) s).active = s.active ++ [live] ∧
          (exec f (.serialLoop g ot (.leaf first)) s).paused = s.paused ∧
          (exec f (.serialLoop g ot (.leaf first)) s).events =
            s.events ++ cbEvents s ((first :: ids).takeWhile
              (fun i => decide ((getLeaf s i).d ≤ ot))) ∧
          (getLeaf (exec f (.serialLoop g ot (.leaf first)) s) live).t =
            -(getLeaf s live).delay + ot ∧
          (getLeaf (exec f (.serialLoop g ot (.leaf first)) s) live).state = .active ∧
          (getLeaf (exec f (.serialLoop g ot (.leaf first)) s) live).cb = .serial g ∧
          g < (exec f (.serialLoop g ot (.leaf first)) s).serials.length ∧
          (getSerial (exec f (.serialLoop g ot (.leaf first)) s) g).current_tween_cb =
            (getLeaf s live).cb
      | [] =>
          (exec f (.serialLoop g ot (.leaf first)) s).active = s.active ∧
          (exec f (.serialLoop g ot (.leaf first)) s).paused = s.paused ∧
          (exec f (.serialLoop g ot (.leaf first)) s).events =
            s.events ++ cbEvents s (first :: ids) ++ cbEvent (getSerial s g).cb)) := by
  induction ids with
  | nil =>
    intro pre first g ot f s hfuel hG hT hI hLen hCb hAct hPau hNodup hNodupOA hOwn
    obtain ⟨f2, rfl⟩ : ∃ f2, f = f2 + 1 + 1 := ⟨f - 2, by omega⟩
    have hLenf : first < s.leaves.length := hLen first (by simp)
    by_cases hskip : (getLeaf s first).d ≤ ot
    · rw [C3_skip_step first g ot f2 s hskip (hCb first (by simp))]
      have hnext : get_next_tween g (setAttr (getLeaf s first).o (getLeaf s first).a
          (applyEase (getLeaf s first).f (getLeaf s first).d (getLeaf s first).b
            (getLeaf s first).c (getLeaf s first).d)
          (pushEvents (cbEvent (getLeaf s first).cb) s)) = Option.none := by
        rw [get_next_at g _ (pre ++ [first]) []
          (by simp only [getSerial_setAttr, getSerial_pushEvents]
              rw [hT]
              simp)
          (by simp only [getSerial_setAttr, getSerial_pushEvents]
              rw [hI]
              simp)]
        rfl
      rw [hnext]
      obtain ⟨f3, rfl⟩ : ∃ f3, f2 = f3 + 1 := ⟨f2 - 1, by omega⟩
      rw [exec_callOwnCb f3 g _
        (by simp only [getSerial_setAttr, getSerial_pushEvents]; exact hOwn)]
      have htake : ([first] : List Nat).takeWhile
          (fun i => decide ((getLeaf s i).d ≤ ot)) = [first] := by
        simp [List.takeWhile_cons, hskip]
      have hdrop : ([first] : List Nat).dropWhile
          (fun i => decide ((getLeaf s i).d ≤ ot)) = [] := by
        simp [List.dropWhile_cons, hskip]
      rw [htake, hdrop]
      refine ⟨?_, ?_, ?_, ?_, ?_, ?_⟩
      · intro i2 _
        simp
      · intro i hi
        rw [List.mem_singleton] at hi
        subst hi
        simp only [pushEvents_attrs]
        rw [setAttr_attrs_self]
      · intro o a h
        rw [List.map_cons, List.map_nil, List.mem_singleton] at h
        simp only [pushEvents_attrs]
        rw [setAttr_attrs_other _ _ _ _ _ _ (by
          intro ⟨h1, h2⟩
          exact h (by rw [h1, h2])), pushEvents_attrs]
      · simp
      · simp
      · simp only [pushEvents_events, setAttr_events, getSerial_setAttr,
          getSerial_pushEvents, cbEvents_cons, cbEvents_nil, List.append_nil,
          List.append_assoc]
    · have hlive := C3_live_step first g ot (f2 + 1 + 1) s (by omega) hG hLenf hskip
      obtain ⟨hac, hpa, hev, hfr, hself, hat, hsl, hser⟩ := hlive
      have htake : ([first] : List Nat).takeWhile
          (fun i => decide ((getLeaf s i).d ≤ ot)) = [] := by
        simp [List.takeWhile_cons, hskip]
      have hdrop : ([first] : List Nat).dropWhile
          (fun i => decide ((getLeaf s i).d ≤ ot)) = [first] := by
        simp [List.dropWhile_cons, hskip]
      rw [htake, hdrop]
      refine ⟨?_, ?_, ?_, ?_, ?_, ?_, ?_, ?_, ?_, ?_, ?_⟩
      · intro i2 h2
        exact hfr i2 (h2 first (by simp))
      · intro i hi
        cases hi
      · intro o a h
        rw [List.map_cons, List.map_nil, List.mem_singleton] at h
        exact hat o a (by
          intro ⟨h1, h2⟩
          exact h (by rw [h1, h2]))
      · rw [hac, List.erase_of_not_mem (hAct first (by simp))]
      · rw [hpa, List.erase_of_not_mem (hPau first (by simp))]
      · rw [hev]
        simp
      · rw [hself]
      · rw [hself]
      · rw [hself]
      · exact hsl ▸ hG
      · rw [hser]
  | cons j rest ih =>
    intro pre first g ot f s hfuel hG hT hI hLen hCb hAct hPau hNodup hNodupOA hOwn
    obtain ⟨f2, rfl⟩ : ∃ f2, f = f2 + 1 + 1 := ⟨f - 2, by omega⟩
    have hLenf : first < s.leaves.length := hLen first (by simp)
    by_cases hskip : (getLeaf s first).d ≤ ot
    · rw [C3_skip_step first g ot f2 s hskip (hCb first (by simp))]
      set vF := applyEase (getLeaf s first).f (getLeaf s first).d (getLeaf s first).b
        (getLeaf s first).c (getLeaf s first).d with hvF
      set E1 := cbEvent (getLeaf s first).cb with hE1
      set s2 := setAttr (getLeaf s first).o (getLeaf s first).a vF
        (pushEvents E1 s) with hs2
      have hnext : get_next_tween g s2 = some (.leaf j) := by
        rw [get_next_at g s2 (pre ++ [first]) (j :: rest)
          (by rw [hs2]
              simp only [getSerial_setAttr, getSerial_pushEvents]
              rw [hT]
              simp)
          (by rw [hs2]
              simp only [getSerial_setAttr, getSerial_pushEvents]
              rw [hI]
              simp)]
        rfl
      rw [hnext]
      set s3 := incIdx g s2 with hs3
      have hleaf3 : ∀ i, getLeaf s3 i = getLeaf s i := by
        intro i
        rw [hs3, hs2]
        simp
      have hG3 : g < s3.serials.length := by
        rw [hs3, hs2]
        simpa using hG
      have hT3 : (getSerial s3 g).tweens = ((pre ++ [first]) ++ j :: rest).map Ref.leaf := by
        rw [hs3]
        simp only [incIdx]
        rw [getSerial_updSerial_self g _ _ (by rw [hs2]; simpa using hG)]
        rw [hs2]
        simp only [getSerial_setAttr, getSerial_pushEvents]
        rw [hT]
        simp
      have hI3 : (getSerial s3 g).current_tween_index = ((pre ++ [first]).length : Int) := by
        rw [hs3]
        simp only [incIdx]
        rw [getSerial_updSerial_self g _ _ (by rw [hs2]; simpa using hG)]
        rw [hs2]
        simp only [getSerial_setAttr, getSerial_pushEvents]
        rw [hI]
        simp
      have hLen3 : ∀ i ∈ j :: rest, i < s3.leaves.length := by
        intro i hi
        have h0 := hLen i (List.mem_cons_of_mem _ hi)
        rw [hs3, hs2]
        simpa using h0
      have hCb3 : ∀ i ∈ j :: rest, plainCb (getLeaf s3 i).cb := by
        intro i hi
        rw [hleaf3]
        exact hCb i (List.mem_cons_of_mem _ hi)
      have hAct3 : ∀ i ∈ j :: rest, i ∉ s3.active := by
        intro i hi
        rw [hs3, hs2]
        simpa using hAct i (List.mem_cons_of_mem _ hi)
      have hPau3 : ∀ i ∈ j :: rest, i ∉ s3.paused := by
        intro i hi
        rw [hs3, hs2]
        simpa using hPau i (List.mem_cons_of_mem _ hi)
      have hNodup3 : (j :: rest).Nodup := hNodup.of_cons
      have hmapeq : ((j :: rest).map (fun i => ((getLeaf s3 i).o, (getLeaf s3 i).a))) =
          ((j :: rest).map (fun i => ((getLeaf s i).o, (getLeaf s i).a))) := by
        simp only [hleaf3]
      have hpairhead : ((getLeaf s first).o, (getLeaf s first).a) ∉
          (j :: rest).map (fun i => ((getLeaf s i).o, (getLeaf s i).a)) := by
        rw [List.map_cons] at hNodupOA
        exact (List.nodup_cons.mp hNodupOA).1
      have hNodupOA3 : ((j :: rest).map
          (fun i => ((getLeaf s3 i).o, (getLeaf s3 i).a))).Nodup := by
        rw [hmapeq, List.map_cons] at *
        exact (List.nodup_cons.mp hNodupOA).2
      have hOwn3 : plainCb (getSerial s3 g).cb := by
        rw [hs3]
        simp only [incIdx]
        rw [getSerial_updSerial_self g _ _ (by rw [hs2]; simpa using hG)]
        rw [hs2]
        simpa using hOwn
      have hown3cb : (getSerial s3 g).cb = (getSerial s g).cb := by
        rw [hs3]
        simp only [incIdx]
        rw [getSerial_updSerial_self g _ _ (by rw [hs2]; simpa using hG)]
        rw [hs2]
        simp
      have hihfull := ih (pre ++ [first]) j g ot (f2 + 1) s3 (by
          simp only [List.length_cons] at hfuel
          omega)
        hG3 hT3 hI3 hLen3 hCb3 hAct3 hPau3 hNodup3 hNodupOA3 hOwn3
      simp only [hleaf3] at hihfull
      obtain ⟨ihfr, ihattr, ihatfr, ihmatch⟩ := hihfull
      have h3active : s3.active = s.active := by
        rw [hs3, hs2]
        simp
      have h3paused : s3.paused = s.paused := by
        rw [hs3, hs2]
        simp
      have h3events : s3.events = s.events ++ E1 := by
        rw [hs3, hs2]
        simp
      have h3attrs_self : s3.attrs (getLeaf s first).o (getLeaf s first).a = vF := by
        rw [hs3]
        simp only [incIdx_attrs]
        rw [hs2]
        exact setAttr_attrs_self _ _ _ _
      have h3attrs_other : ∀ o a, ¬ (o = (getLeaf s first).o ∧ a = (getLeaf s first).a) →
          s3.attrs o a = s.attrs o a := by
        intro o a h
        rw [hs3]
        simp only [incIdx_attrs]
        rw [hs2]
        rw [setAttr_attrs_other _ _ _ _ _ _ h]
        simp
      have htake : (first :: j :: rest).takeWhile
          (fun i => decide ((getLeaf s i).d ≤ ot)) =
          first :: (j :: rest).takeWhile (fun i => decide ((getLeaf s i).d ≤ ot)) := by
        simp [List.takeWhile_cons, hskip]
      have hdrop : (first :: j :: rest).dropWhile
          (fun i => decide ((getLeaf s i).d ≤ ot)) =
          (j :: rest).dropWhile (fun i => decide ((getLeaf s i).d ≤ ot)) := by
        simp [List.dropWhile_cons, hskip]
      rw [htake, hdrop]
      refine ⟨?_, ?_, ?_, ?_⟩
      · intro i2 h2
        exact (ihfr i2 h2).trans (hleaf3 i2)
      · intro i hi
        rcases List.mem_cons.mp hi with h0 | hi2
        · subst h0
          rw [ihatfr _ _ hpairhead, h3attrs_self]
        · exact ihattr i hi2
      · intro o a h
        rw [List.map_cons] at h
        have h1 : (o, a) ∉ (j :: rest).map
            (fun i => ((getLeaf s i).o, (getLeaf s i).a)) :=
          fun hh => h (List.mem_cons_of_mem _ hh)
        have h2 : ¬ (o = (getLeaf s first).o ∧ a = (getLeaf s first).a) := by
          rintro ⟨rfl, rfl⟩
          exact h (List.mem_cons_self _ _)
        rw [ihatfr o a h1, h3attrs_other o a h2]
      · cases hd : (j :: rest).dropWhile (fun i => decide ((getLeaf s i).d ≤ ot)) with
        | nil =>
          rw [hd] at ihmatch
          obtain ⟨a1, a2, a3⟩ := ihmatch
          refine ⟨?_, ?_, ?_⟩
          · rw [a1, h3active]
          · rw [a2, h3paused]
          · rw [a3, h3events, hown3cb, cbEvents_congr s3 s _ hleaf3, cbEvents_cons]
            simp [cbEvents_cons, hleaf3, List.append_assoc]
        | cons live tail =>
          rw [hd] at ihmatch
          obtain ⟨b1, b2, b3, b4, b5, b6, b7, b8⟩ := ihmatch
          refine ⟨?_, ?_, ?_, ?_, ?_, ?_, ?_, ?_⟩
          · rw [b1, h3active]
          · rw [b2, h3paused]
          · rw [b3, h3events, cbEvents_congr s3 s _ hleaf3, cbEvents_cons]
            simp [List.append_assoc]
          · exact b4
          · exact b5
          · exact b6
          · have := b7
            rw [hs3, hs2] at this ⊢
            simpa using this
          · exact b8
    · have hlive := C3_live_step first g ot (f2 + 1 + 1) s (by omega) hG hLenf hskip
      obtain ⟨hac, hpa, hev, hfr, hself, hat, hsl, hser⟩ := hlive
      have htake : (first :: j :: rest).takeWhile
          (fun i => decide ((getLeaf s i).d ≤ ot)) = [] := by
        simp [List.takeWhile_cons, hskip]
      have hdrop : (first :: j :: rest).dropWhile
          (fun i => decide ((getLeaf s i).d ≤ ot)) = first :: j :: rest := by
        simp [List.dropWhile_cons, hskip]
      rw [htake, hdrop]
      refine ⟨?_, ?_, ?_, ?_, ?_, ?_, ?_, ?_, ?_, ?_, ?_⟩
      · intro i2 h2
        exact hfr i2 (h2 first (by simp))
      · intro i hi
        cases hi
      · intro o a h
        rw [List.map_cons] at h
        exact hat o a (by
          intro ⟨h1, h2⟩
          exact h (by rw [h1, h2]; exact List.mem_cons_self _ _))
      · rw [hac, List.erase_of_not_mem (hAct first (by simp))]
      · rw [hpa, List.erase_of_not_mem (hPau first (by simp))]
      · rw [hev]
        simp
      · rw [hself]
      · rw [hself]
      · rw [hself]
      · exact hsl ▸ hG
      · rw [hser]


/-- C3: during Serial group advancement with a carried overtime value
(`_Serial._start_tween(over_time)`), the children after the current index
are processed as follows: the maximal prefix of children whose duration is
less than or equal to the (undiminished) overtime — computed by `takeWhile`
with the same `over_time` at every step — is never scheduled as a live
time-advancing node: each such child stays out of the active registry and
its leaf record (state and clock included) is untouched, while its callback
(if any) is invoked within the same call and its terminal value
`f(d, b, c, d, p)` is written to its owner attribute.  The first child
whose duration exceeds the overtime, if any, is started live with its
clock advanced by the overtime; when the list is exhausted instead, the
group's own callback fires.  (`pre` are the already-consumed children; the
group is non-looping, children are distinct leaves not currently
registered, with distinct owner attributes and plain callbacks.) -/
theorem C3_skip_chain_during_advancement (ids pre : List Nat) (g : Nat) (ot : Val)
    (f : Nat) (s : EngineState)
    (hfuel : ids.length + 4 ≤ f)
    (hG : g < s.serials.length)
    (hT : (getSerial s g).tweens = (pre ++ ids).map Ref.leaf)
    (hI : (getSerial s g).current_tween_index = (pre.length : Int) - 1)
    (hLoop : (getSerial s g).is_looping = false)
    (hLen : ∀ i ∈ ids, i < s.leaves.length)
    (hCb : ∀ i ∈ ids, plainCb (getLeaf s i).cb)
    (hAct : ∀ i ∈ ids, i ∉ s.active)
    (hPau : ∀ i ∈ ids, i ∉ s.paused)
    (hNodup : ids.Nodup)
    (hNodupOA : (ids.map (fun i => ((getLeaf s i).o, (getLeaf s i).a))).Nodup)
    (hOwn : plainCb (getSerial s g).cb) :
    (∀ i2 : Nat,
        (∀ l ∈ (ids.dropWhile (fun i => decide ((getLeaf s i).d ≤ ot))).take 1, i2 ≠ l) →
        getLeaf (exec f (.serialStartTween g ot) s) i2 = getLeaf s i2) ∧
    (∀ i ∈ ids.takeWhile (fun i => decide ((getLeaf s i).d ≤ ot)),
        (exec f (.serialStartTween g ot) s).attrs (getLeaf s i).o (getLeaf s i).a =
          applyEase (getLeaf s i).f (getLeaf s i).d (getLeaf s i).b (getLeaf s i).c
            (getLeaf s i).d) ∧
    (∀ (o a : Nat),
        (o, a) ∉ ids.map (fun i => ((getLeaf s i).o, (getLeaf s i).a)) →
        (exec f (.serialStartTween g ot) s).attrs o a = s.attrs o a) ∧
    (match ids.dropWhile (fun i => decide ((getLeaf s i).d ≤ ot)) with
     | live :: _ =>
        (exec f (.serialStartTween g ot) s).active = s.active ++ [live] ∧
        (exec f (.serialStartTween g ot) s).paused = s.paused ∧
        (exec f (.serialStartTween g ot) s).events =
          s.events ++ cbEvents s (ids.takeWhile (fun i => decide ((getLeaf s i).d ≤ ot))) ∧
        (getLeaf (exec f (.serialStartTween g ot) s) live).t =
          -(getLeaf s live).delay + ot ∧
        (getLeaf (exec f (.serialStartTween g ot) s) live).state = .active ∧
        (getLeaf (exec f (.serialStartTween g ot) s) live).cb = .serial g ∧
        (getSerial (exec f (.serialStartTween g ot) s) g).current_tween_cb =
          (getLeaf s live).cb
     | [] =>
        (exec f (.serialStartTween g ot) s).active = s.active ∧
        (exec f (.serialStartTween g ot) s).paused = s.paused ∧
        (exec f (.serialStartTween g ot) s).events =
          s.events ++ cbEvents s ids ++ cbEvent (getSerial s g).cb) := by
  obtain ⟨f1, rfl⟩ : ∃ f1, f = f1 + 1 := ⟨f - 1, by omega⟩
  have hunf : exec (f1 + 1) (Op.serialStartTween g ot) s =
      (match get_next_tween g s with
       | some tw =>
          exec f1 (.serialLoop g ot tw) (incIdx g s)
       | Option.none =>
          if (getSerial s g).is_looping then
            exec f1 (.callOwnCb g)
              (exec f1 (.serialStartTween g ot)
                (updSerial g (fun ser => { ser with current_tween_index := -1 }) s))
          else exec f1 (.callOwnCb g) s) := by
    conv_lhs => rw [exec]
  rw [hunf, get_next_at g s pre ids hT hI]
  cases ids with
  | nil =>
    rw [hLoop]
    simp only [List.head?_nil, Option.map_none', Bool.false_eq_true, if_false]
    obtain ⟨f3, rfl⟩ : ∃ f3, f1 = f3 + 1 + 1 := ⟨f1 - 2, by omega⟩
    rw [exec_callOwnCb f3 g s hOwn]
    refine ⟨?_, ?_, ?_, ?_, ?_, ?_⟩
    · intro i2 _
      rfl
    · intro i hi
      cases hi
    · intro o a _
      rfl
    · simp
    · simp
    · simp
  | cons first rest =>
    simp only [List.head?_cons, Option.map_some']
    set s1 := incIdx g s with hs1
    have hleaf1 : ∀ i, getLeaf s1 i = getLeaf s i := fun i => rfl
    have hG1 : g < s1.serials.length := by
      rw [hs1]
      simpa using hG
    have hT1 : (getSerial s1 g).tweens = (pre ++ first :: rest).map Ref.leaf := by
      rw [hs1]
      simp only [incIdx]
      rw [getSerial_updSerial_self g _ s hG]
      exact hT
    have hI1 : (getSerial s1 g).current_tween_index = (pre.length : Int) := by
      rw [hs1]
      simp only [incIdx]
      rw [getSerial_updSerial_self g _ s hG]
      simp only [hI]
      ring
    have hLen1 : ∀ i ∈ first :: rest, i < s1.leaves.length := by
      intro i hi
      rw [hs1]
      simpa using hLen i hi
    have hCb1 : ∀ i ∈ first :: rest, plainCb (getLeaf s1 i).cb := by
      intro i hi
      rw [hleaf1]
      exact hCb i hi
    have hAct1 : ∀ i ∈ first :: rest, i ∉ s1.active := by
      intro i hi
      rw [hs1]
      simpa using hAct i hi
    have hPau1 : ∀ i ∈ first :: rest, i ∉ s1.paused := by
      intro i hi
      rw [hs1]
      simpa using hPau i hi
    have hNodupOA1 : ((first :: rest).map
        (fun i => ((getLeaf s1 i).o, (getLeaf s1 i).a))).Nodup := by
      simp only [hleaf1]
      exact hNodupOA
    have hOwn1 : plainCb (getSerial s1 g).cb := by
      rw [hs1]
      simp only [incIdx]
      rw [getSerial_updSerial_self g _ s hG]
      exact hOwn
    have h := C3_loop rest pre first g ot f1 s1 (by
        simp only [List.length_cons] at hfuel
        omega)
      hG1 hT1 hI1 hLen1 hCb1 hAct1 hPau1 hNodup hNodupOA1 hOwn1
    simp only [hleaf1] at h
    obtain ⟨hfr, hattr, hatfr, hmatch⟩ := h
    have h1active : s1.active = s.active := rfl
    have h1paused : s1.paused = s.paused := rfl
    have h1events : s1.events = s.events := rfl
    have h1attrs : s1.attrs = s.attrs := rfl
    refine ⟨?_, ?_, ?_, ?_⟩
    · intro i2 h2
      exact (hfr i2 h2).trans (hleaf1 i2)
    · intro i hi
      exact hattr i hi
    · intro o a h
      exact hatfr o a h
    · cases hd : (first :: rest).dropWhile (fun i => decide ((getLeaf s i).d ≤ ot)) with
      | nil =>
        rw [hd] at hmatch
        obtain ⟨a1, a2, a3⟩ := hmatch
        refine ⟨?_, ?_, ?_⟩
        · rw [a1, h1active]
        · rw [a2, h1paused]
        · rw [a3, h1events, cbEvents_congr s1 s _ hleaf1]
          have hcb1 : (getSerial s1 g).cb = (getSerial s g).cb := by
            rw [hs1]
            simp only [incIdx]
            rw [getSerial_updSerial_self g _ s hG]
          rw [hcb1]
      | cons live tail =>
        rw [hd] at hmatch
        obtain ⟨b1, b2, b3, b4, b5, b6, b7, b8⟩ := hmatch
        refine ⟨?_, ?_, ?_, ?_, ?_, ?_, ?_⟩
        · rw [b1, h1active]
        · rw [b2, h1paused]
        · rw [b3, h1events, cbEvents_congr s1 s _ hleaf1]
        · exact b4
        · exact b5
        · exact b6
        · exact b8


/-- Witness for `C3_skip_chain_during_advancement` on `C3_s0` with overtime
`3/4`: the duration-`1/2` child is skipped (its callback event fires, its
terminal value `10` is written, it is never activated) and the duration-`1`
child is started live with its clock at `3/4`. -/
theorem C3_skip_chain_during_advancement_witness :
    (exec 9 (.serialStartTween 0 (3 / 4)) C3_s0).events = [.userCb 1] ∧
    (exec 9 (.serialStartTween 0 (3 / 4)) C3_s0).active = [1] ∧
    (exec 9 (.serialStartTween 0 (3 / 4)) C3_s0).attrs 0 0 = 10 ∧
    (getLeaf (exec 9 (.serialStartTween 0 (3 / 4)) C3_s0) 1).t = 3 / 4 := by
  have h := C3_skip_chain_during_advancement [0, 1] [] 0 (3 / 4) 9 C3_s0
    (by norm_num)
    (by with_unfolding_all decide)
    (by with_unfolding_all decide)
    (by with_unfolding_all decide)
    (by with_unfolding_all decide)
    (by intro i hi
        fin_cases hi <;> with_unfolding_all decide)
    (by intro i hi
        fin_cases hi
        · exact Or.inr ⟨1, rfl⟩
        · exact Or.inr ⟨2, rfl⟩)
    (by intro i _
        exact List.not_mem_nil i)
    (by intro i _
        exact List.not_mem_nil i)
    (by with_unfolding_all decide)
    (by with_unfolding_all decide)
    (Or.inr ⟨7, rfl⟩)
  have htake : ([0, 1].takeWhile (fun i => decide ((getLeaf C3_s0 i).d ≤ 3 / 4))) =
      [0] := by
    with_unfolding_all decide
  have hdrop : ([0, 1].dropWhile (fun i => decide ((getLeaf C3_s0 i).d ≤ 3 / 4))) =
      [1] := by
    with_unfolding_all decide
  obtain ⟨hfr, hattr, hatfr, hmatch⟩ := h
  rw [hdrop] at hmatch
  obtain ⟨b1, b2, b3, b4, b5, b6, b7⟩ := hmatch
  refine ⟨?_, ?_, ?_, ?_⟩
  · rw [b3, htake]
    with_unfolding_all decide
  · rw [b1]
    with_unfolding_all decide
  · have h0 := hattr 0 (by rw [htake]; exact List.mem_singleton.mpr rfl)
    rw [show (getLeaf C3_s0 0).o = 0 from rfl, show (getLeaf C3_s0 0).a = 0 from rfl]
      at h0
    rw [h0]
    with_unfolding_all decide
  · rw [b4]
    with_unfolding_all decide

end Tweening
